import Mathlib

/-!
Shallow embedding of `examples/python/t_reconstruction_system/rgbd_odometry.py`
from the Open3D repository.

The file defines two driver functions:

  * `rgbd_loop_closure(depth_list, color_list, intrinsic, config)` — evaluates
    RGB-D odometry between all keyframe pairs (keyframes taken at a fixed
    stride), catches per-pair estimator exceptions, filters pairs by an
    overlap threshold on the information matrix, and returns three parallel
    lists (edges, poses, infos).
  * `rgbd_odometry(depth_list, color_list, intrinsic, config)` — walks the
    frame sequence front to back, estimating odometry for every consecutive
    pair and appending every result unconditionally; it catches nothing.

External collaborators (`o3d.t.io.read_image`,
`o3d.t.pipelines.odometry.rgbd_odometry_multi_scale`,
`o3d.t.pipelines.odometry.compute_odometry_information_matrix`) are modelled
as oracle functions bundled in a `Collab` structure, returning `Except Err`
values: `.error` models a raised Python exception.  Python list indexing is
modelled by `listGet`, raising `Err.indexError` out of range, and
`range(0, n, step)` with zero step raises `Err.valueError` as in Python.
Real/float scalars are modelled as rationals; `.to(device)`, `.cpu()` and
`.numpy()` are identities in this model.  The prints and visualisation calls
of the debug branch are modelled as entries appended to a log list.
-/

namespace RGBD

/-- A Python exception value.  `other` stands for any exception raised by a
collaborator that is not one of the named kinds. -/
inductive Err where
  | indexError : Err
  | valueError : Err
  | loadFailure : String → Err
  | alignmentFailure : Err
  | degenerateGeometry : Err
  | unsupportedMethod : String → Err
  | other : Nat → Err
deriving DecidableEq, Repr

/-- An image as returned by `o3d.t.io.read_image(...).to(device)`.  The
drivers read only the pixel dimensions (`rows`, `columns`); the pixel payload
is abstracted as an opaque tag `data` so that oracles may distinguish
images. -/
structure Image where
  rows : Nat
  columns : Nat
  data : Nat
deriving DecidableEq, Repr

/-- `o3d.t.geometry.RGBDImage(color, depth)`. -/
structure RGBDImage where
  color : Image
  depth : Image
deriving DecidableEq, Repr

/-- A 4x4 tensor (pose / transformation matrix), entries as rationals. -/
structure Tensor4 where
  entry : Fin 4 → Fin 4 → ℚ

/-- `o3c.Tensor(np.eye(4))`: the 4x4 identity matrix. -/
def eye4 : Tensor4 := ⟨fun i j => if i = j then 1 else 0⟩

/-- A 6x6 information matrix, entries as rationals. -/
structure InfoMatrix where
  entry : Fin 6 → Fin 6 → ℚ

/-- A 3x3 camera intrinsic matrix. -/
structure Intrinsic where
  entry : Fin 3 → Fin 3 → ℚ

/-- The result object of `rgbd_odometry_multi_scale`; the drivers read only
its `transformation` field. -/
structure OdometryResult where
  transformation : Tensor4

/-- `o3d.t.pipelines.odometry.OdometryConvergenceCriteria(n)`. -/
structure OdometryConvergenceCriteria where
  max_iteration : Nat
deriving DecidableEq, Repr

/-- `o3d.t.pipelines.odometry.Method`. -/
inductive Method where
  | PointToPlane : Method
  | Intensity : Method
  | Hybrid : Method
deriving DecidableEq, Repr

/-- The configuration bundle; fields are the config options the two drivers
read.  Scalars are rationals, `odometry_method` is the raw string. -/
structure Config where
  device : String
  odometry_loop_interval : Nat
  depth_scale : ℚ
  depth_max : ℚ
  odometry_distance_thr : ℚ
  odometry_method : String
  debug_mode : Bool

/-- The external collaborators, as oracles.  An `.error` value models the
call raising a Python exception. -/
structure Collab where
  read_image : String → Except Err Image
  rgbd_odometry_multi_scale : RGBDImage → RGBDImage → Intrinsic → Tensor4 →
    ℚ → ℚ → List OdometryConvergenceCriteria → Method → Except Err OdometryResult
  compute_odometry_information_matrix : Image → Image → Intrinsic → Tensor4 →
    ℚ → ℚ → ℚ → Except Err InfoMatrix

/-- Python list indexing `l[i]`: raises `IndexError` when out of range. -/
def listGet {α : Type} (l : List α) (i : Nat) : Except Err α :=
  match l.get? i with
  | some a => .ok a
  | none => .error .indexError

/-- `list(range(0, n, interval))` for a positive step `interval`: the
multiples of `interval` below `n`, in increasing order.  (The drivers guard
the zero-step case separately, as Python `range` raises `ValueError`.) -/
def pyRangeStep (n interval : Nat) : List Nat :=
  (List.range ((n + interval - 1) / interval)).map (· * interval)

/-- The shared criteria list: three pyramid levels with 20, 10 and 5
iterations. -/
def criteria_list : List OdometryConvergenceCriteria := [⟨20⟩, ⟨10⟩, ⟨5⟩]

/-- Loading the depth and color images of frame `k`:
`o3d.t.io.read_image(depth_list[k]).to(device)` and the same for
`color_list[k]` (`.to(device)` is the identity in this model). -/
def loadFrame (C : Collab) (depth_list color_list : List String) (k : Nat) :
    Except Err (Image × Image) := do
  let dpath ← listGet depth_list k
  let depth ← C.read_image dpath
  let cpath ← listGet color_list k
  let color ← C.read_image cpath
  return (depth, color)

/-- The guarded region of the loop-closure inner loop: the
`rgbd_odometry_multi_scale` call followed by the
`compute_odometry_information_matrix` call, with identity initialisation,
the fixed `criteria_list` and the fixed `PointToPlane` method. -/
def lcEval (C : Collab) (config : Config) (intrinsic : Intrinsic)
    (rgbd_curr : RGBDImage) (depth_curr : Image)
    (rgbd_next : RGBDImage) (depth_next : Image) :
    Except Err (OdometryResult × InfoMatrix) := do
  let res ← C.rgbd_odometry_multi_scale rgbd_curr rgbd_next intrinsic eye4
      config.depth_scale config.depth_max criteria_list Method.PointToPlane
  let info ← C.compute_odometry_information_matrix depth_curr depth_next
      intrinsic res.transformation config.odometry_distance_thr
      config.depth_scale config.depth_max
  return (res, info)

/-- The overlap filter of the loop-closure driver:
`info[5, 5] / (depth_curr.columns * depth_curr.rows) > 0.3`. -/
def overlapKeep (depth_curr : Image) (info : InfoMatrix) : Bool :=
  decide (info.entry 5 5 / ((depth_curr.columns : ℚ) * (depth_curr.rows : ℚ))
    > 3 / 10)

/-- The debug print message of the loop-closure driver. -/
def debugPrintMsg (key_i key_j : Nat) : String :=
  "[DEBUG] Loop closure point-cloud allignment between fragment " ++
    toString key_i ++ " and fragment " ++ toString key_j

/-- The title of the first debug visualisation window. -/
def debugDrawInputMsg (key_i key_j : Nat) : String :=
  "draw: Loop Closure Fragment " ++ toString key_i ++ ", " ++ toString key_j
    ++ " Aligment Input"

/-- The title of the second debug visualisation window. -/
def debugDrawResultMsg (key_i key_j : Nat) : String :=
  "draw: Loop Closure Fragment " ++ toString key_i ++ ", " ++ toString key_j
    ++ " Aligment Result"

/-- Accumulator of the loop-closure driver: the three result lists plus the
log of debug side effects. -/
structure LCAcc where
  edges : List (Nat × Nat) := []
  poses : List Tensor4 := []
  infos : List InfoMatrix := []
  log : List String := []

/-- The body of the loop-closure inner loop after both keyframes are loaded:
try the two estimator calls; on exception `pass` (skip the pair); otherwise
append the triple when the overlap filter passes, and emit the debug
rendering when `config.debug_mode` is set. -/
def lcPair (C : Collab) (config : Config) (intrinsic : Intrinsic)
    (key_i key_j : Nat) (rgbd_curr : RGBDImage) (depth_curr : Image)
    (rgbd_next : RGBDImage) (depth_next : Image) (acc : LCAcc) : LCAcc :=
  match lcEval C config intrinsic rgbd_curr depth_curr rgbd_next depth_next with
  | .error _ => acc
  | .ok (res, info) =>
    let acc1 :=
      if overlapKeep depth_curr info then
        { acc with
          edges := acc.edges ++ [(key_i, key_j)]
          poses := acc.poses ++ [res.transformation]
          infos := acc.infos ++ [info] }
      else acc
    if config.debug_mode then
      { acc1 with
        log := acc1.log ++ [debugPrintMsg key_i key_j,
          debugDrawInputMsg key_i key_j, debugDrawResultMsg key_i key_j] }
    else acc1

/-- The inner loop `for j in range(i + 1, n_key_indices)`: `js` is the list
of the remaining key indices `key_indices[i+1 ..]`.  Each iteration loads
keyframe `key_j` (a load failure propagates) and runs the guarded pair
body. -/
def lcInner (C : Collab) (config : Config) (intrinsic : Intrinsic)
    (depth_list color_list : List String)
    (key_i : Nat) (rgbd_curr : RGBDImage) (depth_curr : Image) :
    List Nat → LCAcc → Except Err LCAcc
  | [], acc => .ok acc
  | key_j :: js, acc => do
    let (depth_next, color_next) ← loadFrame C depth_list color_list key_j
    let rgbd_next : RGBDImage := ⟨color_next, depth_next⟩
    lcInner C config intrinsic depth_list color_list key_i rgbd_curr depth_curr
      js (lcPair C config intrinsic key_i key_j rgbd_curr depth_curr
        rgbd_next depth_next acc)

/-- The outer loop `for i in range(n_key_indices - 1)`: the argument list is
the remaining suffix of `key_indices`.  The last keyframe gets no outer
iteration.  Each iteration loads keyframe `key_i` (a load failure
propagates) and runs the inner loop over the following keyframes. -/
def lcOuter (C : Collab) (config : Config) (intrinsic : Intrinsic)
    (depth_list color_list : List String) :
    List Nat → LCAcc → Except Err LCAcc
  | [], acc => .ok acc
  | [_], acc => .ok acc
  | key_i :: key_j :: js, acc => do
    let (depth_curr, color_curr) ← loadFrame C depth_list color_list key_i
    let rgbd_curr : RGBDImage := ⟨color_curr, depth_curr⟩
    let acc1 ← lcInner C config intrinsic depth_list color_list key_i
      rgbd_curr depth_curr (key_j :: js) acc
    lcOuter C config intrinsic depth_list color_list (key_j :: js) acc1

/-- `rgbd_loop_closure(depth_list, color_list, intrinsic, config)`.  Returns
`(edges, poses, infos)` plus the debug log; `.error` models an uncaught
exception escaping the function. -/
def rgbd_loop_closure (C : Collab) (depth_list color_list : List String)
    (intrinsic : Intrinsic) (config : Config) :
    Except Err (List (Nat × Nat) × List Tensor4 × List InfoMatrix × List String) := do
  let interval := config.odometry_loop_interval
  let n_files := depth_list.length
  if interval = 0 then
    .error .valueError
  else do
    let key_indices := pyRangeStep n_files interval
    let acc ← lcOuter C config intrinsic depth_list color_list key_indices {}
    return (acc.edges, acc.poses, acc.infos, acc.log)

/-- Resolution of `config.odometry_method` in `rgbd_odometry`: the three
`if/elif` branches, and the `raise Exception(...)` of the `else` branch. -/
def resolveMethod (s : String) : Except Err Method :=
  if s = "point2plane" then .ok Method.PointToPlane
  else if s = "intensity" then .ok Method.Intensity
  else if s = "hybrid" then .ok Method.Hybrid
  else .error (.unsupportedMethod s)

/-- Accumulator of the sequential driver: the three result lists. -/
structure SAcc where
  edges : List (Nat × Nat) := []
  poses : List Tensor4 := []
  infos : List InfoMatrix := []

/-- The loop `for i in tqdm(range(0, len(depth_list) - 1))` of the
sequential driver: load frame `i + 1`, run the two estimator calls with no
exception handling (any failure propagates), append the triple
unconditionally, and advance the current frame. -/
def seqLoop (C : Collab) (config : Config) (intrinsic : Intrinsic)
    (method : Method) (depth_list color_list : List String)
    (rgbd_curr : RGBDImage) (depth_curr : Image) :
    List Nat → SAcc → Except Err SAcc
  | [], acc => .ok acc
  | i :: is, acc => do
    let (depth_next, color_next) ← loadFrame C depth_list color_list (i + 1)
    let rgbd_next : RGBDImage := ⟨color_next, depth_next⟩
    let res ← C.rgbd_odometry_multi_scale rgbd_curr rgbd_next intrinsic eye4
      config.depth_scale config.depth_max criteria_list method
    let info ← C.compute_odometry_information_matrix depth_curr depth_next
      intrinsic res.transformation config.odometry_distance_thr
      config.depth_scale config.depth_max
    seqLoop C config intrinsic method depth_list color_list rgbd_next
      depth_next is
      { edges := acc.edges ++ [(i, i + 1)]
        poses := acc.poses ++ [res.transformation]
        infos := acc.infos ++ [info] }

/-- `rgbd_odometry(depth_list, color_list, intrinsic, config)`.  Loads frame
0, resolves the odometry method (raising on an unsupported value), then runs
the sequential loop; `.error` models an uncaught exception escaping the
function. -/
def rgbd_odometry (C : Collab) (depth_list color_list : List String)
    (intrinsic : Intrinsic) (config : Config) :
    Except Err (List (Nat × Nat) × List Tensor4 × List InfoMatrix) := do
  let (depth_curr, color_curr) ← loadFrame C depth_list color_list 0
  let rgbd_curr : RGBDImage := ⟨color_curr, depth_curr⟩
  let method ← resolveMethod config.odometry_method
  let acc ← seqLoop C config intrinsic method depth_list color_list rgbd_curr
    depth_curr (List.range (depth_list.length - 1)) {}
  return (acc.edges, acc.poses, acc.infos)

/-- The evaluation order of keyframe pairs in the loop-closure double loop:
outer index ascending, inner index ascending within each outer index. -/
def ordPairs : List Nat → List (Nat × Nat)
  | [] => []
  | k :: ks => ks.map (fun k2 => (k, k2)) ++ ordPairs ks

/-- Ghost trace of one loop-closure pair evaluation: load both keyframes and
run the guarded region, keeping the outer depth image (whose dimensions feed
the overlap filter). -/
def lcPairEval (C : Collab) (config : Config) (intrinsic : Intrinsic)
    (depth_list color_list : List String) (p : Nat × Nat) :
    Except Err (Image × OdometryResult × InfoMatrix) := do
  let (depth_curr, color_curr) ← loadFrame C depth_list color_list p.1
  let (depth_next, color_next) ← loadFrame C depth_list color_list p.2
  let (res, info) ← lcEval C config intrinsic ⟨color_curr, depth_curr⟩
    depth_curr ⟨color_next, depth_next⟩ depth_next
  return (depth_curr, res, info)

/-- The triple the loop-closure driver records for pair `p`: `none` when the
pair evaluation raises or the overlap filter rejects it. -/
def lcTriple (C : Collab) (config : Config) (intrinsic : Intrinsic)
    (depth_list color_list : List String) (p : Nat × Nat) :
    Option ((Nat × Nat) × Tensor4 × InfoMatrix) :=
  match lcPairEval C config intrinsic depth_list color_list p with
  | .error _ => none
  | .ok (depth_curr, res, info) =>
    if overlapKeep depth_curr info then some (p, res.transformation, info)
    else none

/-- The debug log entries the loop-closure driver emits for pair `p`. -/
def lcLog (C : Collab) (config : Config) (intrinsic : Intrinsic)
    (depth_list color_list : List String) (p : Nat × Nat) : List String :=
  match lcPairEval C config intrinsic depth_list color_list p with
  | .error _ => []
  | .ok _ =>
    if config.debug_mode then
      [debugPrintMsg p.1 p.2, debugDrawInputMsg p.1 p.2,
        debugDrawResultMsg p.1 p.2]
    else []

/-- The list of recorded triples over a pair list. -/
def lcTriples (C : Collab) (config : Config) (intrinsic : Intrinsic)
    (depth_list color_list : List String) (P : List (Nat × Nat)) :
    List ((Nat × Nat) × Tensor4 × InfoMatrix) :=
  P.filterMap (lcTriple C config intrinsic depth_list color_list)

theorem except_isOk_exists {ε α : Type} {e : Except ε α} (h : e.isOk = true) :
    ∃ a, e = .ok a := by
  cases e with
  | ok a => exact ⟨a, rfl⟩
  | error b => simp [Except.isOk, Except.toBool] at h

/-- One guarded pair body agrees with the ghost trace `lcTriple`/`lcLog`
once both keyframe loads are fixed. -/
theorem lcPair_spec (C : Collab) (config : Config) (intrinsic : Intrinsic)
    (depth_list color_list : List String) (key_i key_j : Nat)
    (d1 c1 d2 c2 : Image)
    (h1 : loadFrame C depth_list color_list key_i = .ok (d1, c1))
    (h2 : loadFrame C depth_list color_list key_j = .ok (d2, c2))
    (acc : LCAcc) :
    lcPair C config intrinsic key_i key_j ⟨c1, d1⟩ d1 ⟨c2, d2⟩ d2 acc =
      { edges := acc.edges ++ (lcTriples C config intrinsic depth_list
          color_list [(key_i, key_j)]).map (fun t => t.1)
        poses := acc.poses ++ (lcTriples C config intrinsic depth_list
          color_list [(key_i, key_j)]).map (fun t => t.2.1)
        infos := acc.infos ++ (lcTriples C config intrinsic depth_list
          color_list [(key_i, key_j)]).map (fun t => t.2.2)
        log := acc.log ++
          lcLog C config intrinsic depth_list color_list (key_i, key_j) } := by
  unfold lcPair lcTriples lcTriple lcLog lcPairEval
  cases hev : lcEval C config intrinsic ⟨c1, d1⟩ d1 ⟨c2, d2⟩ d2 with
  | error e => simp [bind, Except.bind, h1, h2, hev, List.filterMap]
  | ok ri =>
    obtain ⟨res, info⟩ := ri
    cases hk : overlapKeep d1 info <;> cases hd : config.debug_mode <;>
      simp [bind, Except.bind, pure, Except.pure, h1, h2, hev, hk, hd,
        List.filterMap]

/-- Characterisation of the inner loop when every remaining keyframe load
succeeds: the accumulator grows by exactly the surviving triples of the
pairs `(key_i, j)` for `j` in `js`, in order, plus the debug log. -/
theorem lcInner_spec (C : Collab) (config : Config) (intrinsic : Intrinsic)
    (depth_list color_list : List String) (key_i : Nat) (d1 c1 : Image)
    (h1 : loadFrame C depth_list color_list key_i = .ok (d1, c1)) :
    ∀ (js : List Nat) (acc : LCAcc),
    (∀ j ∈ js, (loadFrame C depth_list color_list j).isOk = true) →
    lcInner C config intrinsic depth_list color_list key_i ⟨c1, d1⟩ d1 js acc =
      .ok { edges := acc.edges ++ (lcTriples C config intrinsic depth_list
              color_list (js.map (fun j => (key_i, j)))).map (fun t => t.1)
            poses := acc.poses ++ (lcTriples C config intrinsic depth_list
              color_list (js.map (fun j => (key_i, j)))).map (fun t => t.2.1)
            infos := acc.infos ++ (lcTriples C config intrinsic depth_list
              color_list (js.map (fun j => (key_i, j)))).map (fun t => t.2.2)
            log := acc.log ++ (js.map (fun j => (key_i, j))).flatMap
              (lcLog C config intrinsic depth_list color_list) } := by
  intro js
  induction js with
  | nil => intro acc _; simp [lcInner, lcTriples]
  | cons key_j js ih =>
    intro acc hloads
    obtain ⟨⟨d2, c2⟩, h2⟩ := except_isOk_exists (hloads key_j (by simp))
    have hrest : ∀ j ∈ js, (loadFrame C depth_list color_list j).isOk = true :=
      fun j hj => hloads j (List.mem_cons_of_mem _ hj)
    rw [lcInner]
    simp only [h2, bind, Except.bind]
    rw [lcPair_spec C config intrinsic depth_list color_list key_i key_j
      d1 c1 d2 c2 h1 h2 acc]
    rw [ih _ hrest]
    simp only [List.map_cons, lcTriples, List.filterMap_cons]
    cases htr : lcTriple C config intrinsic depth_list color_list
        (key_i, key_j) with
    | none => simp [htr, lcTriples, List.filterMap, List.append_assoc]
    | some t => simp [htr, lcTriples, List.filterMap, List.append_assoc]

/-- Characterisation of the outer double loop when every keyframe load
succeeds: the accumulator grows by the surviving triples of all ordered
keyframe pairs, in evaluation order. -/
theorem lcOuter_spec (C : Collab) (config : Config) (intrinsic : Intrinsic)
    (depth_list color_list : List String) :
    ∀ (keys : List Nat) (acc : LCAcc),
    (∀ k ∈ keys, (loadFrame C depth_list color_list k).isOk = true) →
    lcOuter C config intrinsic depth_list color_list keys acc =
      .ok { edges := acc.edges ++ (lcTriples C config intrinsic depth_list
              color_list (ordPairs keys)).map (fun t => t.1)
            poses := acc.poses ++ (lcTriples C config intrinsic depth_list
              color_list (ordPairs keys)).map (fun t => t.2.1)
            infos := acc.infos ++ (lcTriples C config intrinsic depth_list
              color_list (ordPairs keys)).map (fun t => t.2.2)
            log := acc.log ++ (ordPairs keys).flatMap
              (lcLog C config intrinsic depth_list color_list) } := by
  intro keys
  induction keys with
  | nil => intro acc _; simp [lcOuter, ordPairs, lcTriples]
  | cons key_i rest ih =>
    intro acc hloads
    cases rest with
    | nil => simp [lcOuter, ordPairs, lcTriples]
    | cons key_j js =>
      obtain ⟨⟨d1, c1⟩, h1⟩ := except_isOk_exists (hloads key_i (by simp))
      have hrest : ∀ k ∈ key_j :: js,
          (loadFrame C depth_list color_list k).isOk = true :=
        fun k hk => hloads k (List.mem_cons_of_mem _ hk)
      rw [lcOuter]
      simp only [h1, bind, Except.bind]
      rw [lcInner_spec C config intrinsic depth_list color_list key_i d1 c1 h1
        (key_j :: js) acc hrest]
      dsimp only
      rw [ih _ hrest]
      simp only [ordPairs, lcTriples, List.filterMap_append, List.map_append,
        List.flatMap_append, List.append_assoc]

/-- Characterisation of `rgbd_loop_closure` when the stride is positive and
every keyframe load succeeds: the function returns, without raising, the
projections of the surviving triples of all ordered keyframe pairs. -/
theorem rgbd_loop_closure_spec (C : Collab) (depth_list color_list : List String)
    (intrinsic : Intrinsic) (config : Config)
    (hI : config.odometry_loop_interval ≠ 0)
    (hloads : ∀ k ∈ pyRangeStep depth_list.length config.odometry_loop_interval,
      (loadFrame C depth_list color_list k).isOk = true) :
    rgbd_loop_closure C depth_list color_list intrinsic config =
      .ok ((lcTriples C config intrinsic depth_list color_list
              (ordPairs (pyRangeStep depth_list.length
                config.odometry_loop_interval))).map (fun t => t.1),
           (lcTriples C config intrinsic depth_list color_list
              (ordPairs (pyRangeStep depth_list.length
                config.odometry_loop_interval))).map (fun t => t.2.1),
           (lcTriples C config intrinsic depth_list color_list
              (ordPairs (pyRangeStep depth_list.length
                config.odometry_loop_interval))).map (fun t => t.2.2),
           (ordPairs (pyRangeStep depth_list.length
              config.odometry_loop_interval)).flatMap
             (lcLog C config intrinsic depth_list color_list)) := by
  unfold rgbd_loop_closure
  simp only [hI, if_neg, ite_false]
  rw [lcOuter_spec C config intrinsic depth_list color_list _ {} hloads]
  simp [bind, Except.bind, pure, Except.pure]

theorem except_isOk_ok {ε α : Type} (a : α) :
    (Except.ok a : Except ε α).isOk = true := rfl

theorem except_isOk_error {ε α : Type} (e : ε) :
    (Except.error e : Except ε α).isOk = false := rfl

/-- If the load of keyframe `kt` at position `m` of the remaining inner list
fails and all earlier loads of the list succeed, the inner loop raises
exactly that load error, whatever the estimator oracles do. -/
theorem lcInner_err (C : Collab) (config : Config) (intrinsic : Intrinsic)
    (depth_list color_list : List String) (key_i : Nat)
    (rgbd_curr : RGBDImage) (depth_curr : Image) (kt : Nat) (e : Err)
    (he : loadFrame C depth_list color_list kt = .error e) :
    ∀ (js : List Nat) (m : Nat) (acc : LCAcc), js.get? m = some kt →
    (∀ s < m, ∀ x, js.get? s = some x →
      (loadFrame C depth_list color_list x).isOk = true) →
    lcInner C config intrinsic depth_list color_list key_i rgbd_curr
      depth_curr js acc = .error e := by
  intro js
  induction js with
  | nil => intro m acc hm; simp [List.get?] at hm
  | cons j js ih =>
    intro m acc hm hbefore
    cases m with
    | zero =>
      simp [List.get?] at hm
      subst hm
      rw [lcInner]
      simp [bind, Except.bind, he]
    | succ m =>
      obtain ⟨⟨d2, c2⟩, h2⟩ := except_isOk_exists
        (hbefore 0 (Nat.succ_pos m) j rfl)
      rw [lcInner]
      simp only [bind, Except.bind, h2]
      exact ih m _ hm (fun s hs x hx => hbefore (s + 1) (by omega) x hx)

/-- If some load among the remaining inner keyframes fails, the inner loop
raises (it never completes normally). -/
theorem lcInner_isError (C : Collab) (config : Config) (intrinsic : Intrinsic)
    (depth_list color_list : List String) (key_i : Nat) :
    ∀ (js : List Nat) (rgbd_curr : RGBDImage) (depth_curr : Image)
      (acc : LCAcc),
    (∃ j ∈ js, (loadFrame C depth_list color_list j).isOk = false) →
    ∃ e, lcInner C config intrinsic depth_list color_list key_i rgbd_curr
      depth_curr js acc = .error e := by
  intro js
  induction js with
  | nil => intro _ _ _ h; simp at h
  | cons j js ih =>
    intro rgbd_curr depth_curr acc ⟨jf, hjf, hfail⟩
    cases h2 : loadFrame C depth_list color_list j with
    | error e => exact ⟨e, by rw [lcInner]; simp [bind, Except.bind, h2]⟩
    | ok dc =>
      obtain ⟨d2, c2⟩ := dc
      have hjf2 : jf ∈ js := by
        rcases List.mem_cons.mp hjf with h | h
        · subst h; rw [h2] at hfail; simp [except_isOk_ok] at hfail
        · exact h
      obtain ⟨e, hrec⟩ := ih rgbd_curr depth_curr
        (lcPair C config intrinsic key_i j rgbd_curr depth_curr
          ⟨c2, d2⟩ d2 acc) ⟨jf, hjf2, hfail⟩
      exact ⟨e, by rw [lcInner]; simp [bind, Except.bind, h2, hrec]⟩

/-- If the keyframe list has at least two entries and some keyframe load
fails, the double loop raises (the failure is reached in the first outer
iteration at the latest). -/
theorem lcOuter_isError (C : Collab) (config : Config) (intrinsic : Intrinsic)
    (depth_list color_list : List String) (keys : List Nat) (acc : LCAcc)
    (hM : 2 ≤ keys.length)
    (hfail : ∃ k ∈ keys, (loadFrame C depth_list color_list k).isOk = false) :
    ∃ e, lcOuter C config intrinsic depth_list color_list keys acc =
      .error e := by
  match keys, hM with
  | k0 :: k1 :: rest, _ =>
    obtain ⟨kf, hkf, hkfail⟩ := hfail
    cases h1 : loadFrame C depth_list color_list k0 with
    | error e => exact ⟨e, by rw [lcOuter]; simp [bind, Except.bind, h1]⟩
    | ok dc =>
      obtain ⟨d1, c1⟩ := dc
      have hkf2 : kf ∈ k1 :: rest := by
        rcases List.mem_cons.mp hkf with h | h
        · subst h; rw [h1] at hkfail; simp [except_isOk_ok] at hkfail
        · exact h
      obtain ⟨e, hrec⟩ := lcInner_isError C config intrinsic depth_list
        color_list k0 (k1 :: rest) ⟨c1, d1⟩ d1 acc ⟨kf, hkf2, hkfail⟩
      exact ⟨e, by rw [lcOuter]; simp [bind, Except.bind, h1, hrec]⟩

/-- Converse characterisation: whenever `rgbd_loop_closure` returns normally,
its value is exactly the projections of the surviving triples of all ordered
keyframe pairs (for any input). -/
theorem rgbd_loop_closure_ok_char (C : Collab)
    (depth_list color_list : List String) (intrinsic : Intrinsic)
    (config : Config)
    (out : List (Nat × Nat) × List Tensor4 × List InfoMatrix × List String)
    (hrun : rgbd_loop_closure C depth_list color_list intrinsic config =
      .ok out) :
    out = ((lcTriples C config intrinsic depth_list color_list
             (ordPairs (pyRangeStep depth_list.length
               config.odometry_loop_interval))).map (fun t => t.1),
           (lcTriples C config intrinsic depth_list color_list
             (ordPairs (pyRangeStep depth_list.length
               config.odometry_loop_interval))).map (fun t => t.2.1),
           (lcTriples C config intrinsic depth_list color_list
             (ordPairs (pyRangeStep depth_list.length
               config.odometry_loop_interval))).map (fun t => t.2.2),
           (ordPairs (pyRangeStep depth_list.length
             config.odometry_loop_interval)).flatMap
             (lcLog C config intrinsic depth_list color_list)) := by
  by_cases hI : config.odometry_loop_interval = 0
  · rw [rgbd_loop_closure] at hrun
    simp [hI] at hrun
  · set keys := pyRangeStep depth_list.length config.odometry_loop_interval
      with hkeys
    by_cases hM : 2 ≤ keys.length
    · by_cases hall : ∀ k ∈ keys, (loadFrame C depth_list color_list k).isOk
        = true
      · rw [rgbd_loop_closure_spec C depth_list color_list intrinsic config hI
          (hkeys ▸ hall)] at hrun
        exact (Except.ok.inj hrun).symm
      · push_neg at hall
        obtain ⟨kf, hkf, hkfail⟩ := hall
        obtain ⟨e, herr⟩ := lcOuter_isError C config intrinsic depth_list
          color_list keys {} hM
          ⟨kf, hkf, Bool.eq_false_iff.mpr hkfail⟩
        rw [rgbd_loop_closure] at hrun
        simp [hI, bind, Except.bind, hkeys.symm ▸ herr] at hrun
    · have hcases : keys = [] ∨ ∃ k, keys = [k] := by
        cases hk : keys with
        | nil => exact Or.inl rfl
        | cons a t =>
          cases t with
          | nil => exact Or.inr ⟨a, rfl⟩
          | cons b r =>
            rw [hk] at hM
            exact absurd (by simp [List.length_cons]) hM
      have hshort : ordPairs keys = [] := by
        rcases hcases with h | ⟨k, h⟩ <;> rw [h] <;> rfl
      have houter : lcOuter C config intrinsic depth_list color_list keys {} =
          .ok {} := by
        rcases hcases with h | ⟨k, h⟩ <;> rw [h] <;> rfl
      rw [rgbd_loop_closure] at hrun
      simp only [hI, if_neg, ite_false, bind, Except.bind, ← hkeys,
        houter] at hrun
      simp only [pure, Except.pure] at hrun
      rw [hshort]
      simp [lcTriples]
      exact (Except.ok.inj hrun).symm

/-- Ghost trace of one sequential iteration `i`: load frames `i` and `i + 1`
and run the two estimator calls exactly as the loop body does (the loop keeps
frame `i` live from the previous iteration; reloading it here is sound
because loads are deterministic oracles). -/
def seqStep (C : Collab) (config : Config) (intrinsic : Intrinsic)
    (method : Method) (depth_list color_list : List String) (i : Nat) :
    Except Err (OdometryResult × InfoMatrix) := do
  let (depth_curr, color_curr) ← loadFrame C depth_list color_list i
  let (depth_next, color_next) ← loadFrame C depth_list color_list (i + 1)
  let res ← C.rgbd_odometry_multi_scale ⟨color_curr, depth_curr⟩
    ⟨color_next, depth_next⟩ intrinsic eye4 config.depth_scale
    config.depth_max criteria_list method
  let info ← C.compute_odometry_information_matrix depth_curr depth_next
    intrinsic res.transformation config.odometry_distance_thr
    config.depth_scale config.depth_max
  return (res, info)

/-- The pose recorded at iteration `i` (identity as an unused default when
the step fails). -/
def stepPose (C : Collab) (config : Config) (intrinsic : Intrinsic)
    (method : Method) (depth_list color_list : List String) (i : Nat) :
    Tensor4 :=
  match seqStep C config intrinsic method depth_list color_list i with
  | .ok (res, _) => res.transformation
  | .error _ => eye4

/-- The information matrix recorded at iteration `i` (zero as an unused
default when the step fails). -/
def stepInfo (C : Collab) (config : Config) (intrinsic : Intrinsic)
    (method : Method) (depth_list color_list : List String) (i : Nat) :
    InfoMatrix :=
  match seqStep C config intrinsic method depth_list color_list i with
  | .ok (_, info) => info
  | .error _ => ⟨fun _ _ => 0⟩

/-- Characterisation of the sequential loop over consecutive indices
`s, s+1, ..., s+len-1` when every step succeeds: each iteration appends its
edge, pose and information matrix unconditionally, in order. -/
theorem seqLoop_spec (C : Collab) (config : Config) (intrinsic : Intrinsic)
    (method : Method) (depth_list color_list : List String) :
    ∀ (len s : Nat) (d c : Image) (acc : SAcc),
    loadFrame C depth_list color_list s = .ok (d, c) →
    (∀ i ∈ List.range' s len,
      (seqStep C config intrinsic method depth_list color_list i).isOk
        = true) →
    seqLoop C config intrinsic method depth_list color_list ⟨c, d⟩ d
      (List.range' s len) acc =
      .ok { edges := acc.edges ++ (List.range' s len).map (fun i => (i, i + 1))
            poses := acc.poses ++ (List.range' s len).map
              (stepPose C config intrinsic method depth_list color_list)
            infos := acc.infos ++ (List.range' s len).map
              (stepInfo C config intrinsic method depth_list color_list) } := by
  intro len
  induction len with
  | zero => intro s d c acc _ _; simp [seqLoop, List.range']
  | succ n ih =>
    intro s d c acc h_s hsteps
    have hs0 : (seqStep C config intrinsic method depth_list color_list
        s).isOk = true := hsteps s (by simp [List.range'])
    cases h2 : loadFrame C depth_list color_list (s + 1) with
    | error e =>
      exfalso
      rw [seqStep] at hs0
      simp [bind, Except.bind, Except.isOk, Except.toBool, h_s, h2] at hs0
    | ok dc2 =>
      obtain ⟨d2, c2⟩ := dc2
      cases h3 : C.rgbd_odometry_multi_scale ⟨c, d⟩ ⟨c2, d2⟩ intrinsic eye4
          config.depth_scale config.depth_max criteria_list method with
      | error e =>
        exfalso
        rw [seqStep] at hs0
        simp [bind, Except.bind, Except.isOk, Except.toBool, h_s, h2, h3] at hs0
      | ok res =>
        cases h4 : C.compute_odometry_information_matrix d d2 intrinsic
            res.transformation config.odometry_distance_thr
            config.depth_scale config.depth_max with
        | error e =>
          exfalso
          rw [seqStep] at hs0
          simp [bind, Except.bind, Except.isOk, Except.toBool, h_s, h2, h3, h4] at hs0
        | ok info =>
          have hstep : seqStep C config intrinsic method depth_list color_list
              s = .ok (res, info) := by
            rw [seqStep]
            simp [bind, Except.bind, pure, Except.pure, h_s, h2, h3, h4]
          have hrule : List.range' s (n + 1) = s :: List.range' (s + 1) n :=
            rfl
          rw [hrule, seqLoop]
          simp only [bind, Except.bind, h2, h3, h4]
          rw [ih (s + 1) d2 c2 _ h2
            (fun i hi => hsteps i (List.mem_cons_of_mem _ hi))]
          simp only [List.map_cons, stepPose, stepInfo, hstep,
        List.append_assoc, List.cons_append, List.nil_append]

/-- If every step before iteration `s + t` succeeds and the step at `s + t`
raises `e` (a failed load of frame `s + t + 1`, estimator call or
information-matrix call), the sequential loop propagates exactly `e`. -/
theorem seqLoop_err (C : Collab) (config : Config) (intrinsic : Intrinsic)
    (method : Method) (depth_list color_list : List String) (e : Err) :
    ∀ (t len s : Nat) (d c : Image) (acc : SAcc),
    loadFrame C depth_list color_list s = .ok (d, c) →
    t < len →
    (∀ i ∈ List.range' s t,
      (seqStep C config intrinsic method depth_list color_list i).isOk
        = true) →
    seqStep C config intrinsic method depth_list color_list (s + t) =
      .error e →
    seqLoop C config intrinsic method depth_list color_list ⟨c, d⟩ d
      (List.range' s len) acc = .error e := by
  intro t
  induction t with
  | zero =>
    intro len s d c acc h_s hlt _ hfailstep
    obtain ⟨n, rfl⟩ : ∃ n, len = n + 1 :=
      ⟨len - 1, by omega⟩
    rw [Nat.add_zero] at hfailstep
    have hrule : List.range' s (n + 1) = s :: List.range' (s + 1) n := rfl
    rw [hrule, seqLoop]
    rw [seqStep] at hfailstep
    simp only [bind, Except.bind, h_s] at hfailstep
    cases h2 : loadFrame C depth_list color_list (s + 1) with
    | error e2 =>
      rw [h2] at hfailstep
      simp at hfailstep
      subst hfailstep
      simp [bind, Except.bind, h2]
    | ok dc2 =>
      obtain ⟨d2, c2⟩ := dc2
      rw [h2] at hfailstep
      simp only at hfailstep
      cases h3 : C.rgbd_odometry_multi_scale ⟨c, d⟩ ⟨c2, d2⟩ intrinsic eye4
          config.depth_scale config.depth_max criteria_list method with
      | error e3 =>
        rw [h3] at hfailstep
        simp at hfailstep
        subst hfailstep
        simp [bind, Except.bind, h2, h3]
      | ok res =>
        rw [h3] at hfailstep
        simp only at hfailstep
        cases h4 : C.compute_odometry_information_matrix d d2 intrinsic
            res.transformation config.odometry_distance_thr
            config.depth_scale config.depth_max with
        | error e4 =>
          rw [h4] at hfailstep
          simp at hfailstep
          subst hfailstep
          simp [bind, Except.bind, h2, h3, h4]
        | ok info =>
          rw [h4] at hfailstep
          simp [pure, Except.pure] at hfailstep
  | succ t ih =>
    intro len s d c acc h_s hlt hbefore hfailstep
    obtain ⟨n, rfl⟩ : ∃ n, len = n + 1 := ⟨len - 1, by omega⟩
    have hs0 : (seqStep C config intrinsic method depth_list color_list
        s).isOk = true := hbefore s (by simp [List.range'])
    cases h2 : loadFrame C depth_list color_list (s + 1) with
    | error e2 =>
      exfalso
      rw [seqStep] at hs0
      simp [bind, Except.bind, Except.isOk, Except.toBool, h_s, h2] at hs0
    | ok dc2 =>
      obtain ⟨d2, c2⟩ := dc2
      cases h3 : C.rgbd_odometry_multi_scale ⟨c, d⟩ ⟨c2, d2⟩ intrinsic eye4
          config.depth_scale config.depth_max criteria_list method with
      | error e3 =>
        exfalso
        rw [seqStep] at hs0
        simp [bind, Except.bind, Except.isOk, Except.toBool, h_s, h2, h3] at hs0
      | ok res =>
        cases h4 : C.compute_odometry_information_matrix d d2 intrinsic
            res.transformation config.odometry_distance_thr
            config.depth_scale config.depth_max with
        | error e4 =>
          exfalso
          rw [seqStep] at hs0
          simp [bind, Except.bind, Except.isOk, Except.toBool, h_s, h2, h3, h4] at hs0
        | ok info =>
          have hrule : List.range' s (n + 1) = s :: List.range' (s + 1) n :=
            rfl
          rw [hrule, seqLoop]
          simp only [bind, Except.bind, h2, h3, h4]
          exact ih n (s + 1) d2 c2 _ h2 (by omega)
            (fun i hi => hbefore i (List.mem_cons_of_mem _ hi))
            (by rw [show s + 1 + t = s + (t + 1) by omega]; exact hfailstep)

/-- Characterisation of `rgbd_odometry` when frame 0 loads, the configured
method resolves and every sequential step succeeds: the returned edges are
exactly the consecutive pairs in order, with the traced poses and
information matrices. -/
theorem rgbd_odometry_spec (C : Collab) (depth_list color_list : List String)
    (intrinsic : Intrinsic) (config : Config) (method : Method)
    (d c : Image)
    (h0 : loadFrame C depth_list color_list 0 = .ok (d, c))
    (hm : resolveMethod config.odometry_method = .ok method)
    (hsteps : ∀ i ∈ List.range (depth_list.length - 1),
      (seqStep C config intrinsic method depth_list color_list i).isOk
        = true) :
    rgbd_odometry C depth_list color_list intrinsic config =
      .ok ((List.range (depth_list.length - 1)).map (fun i => (i, i + 1)),
           (List.range (depth_list.length - 1)).map
             (stepPose C config intrinsic method depth_list color_list),
           (List.range (depth_list.length - 1)).map
             (stepInfo C config intrinsic method depth_list color_list)) := by
  rw [rgbd_odometry]
  simp only [bind, Except.bind, h0, hm]
  rw [List.range_eq_range'] at hsteps ⊢
  rw [seqLoop_spec C config intrinsic method depth_list color_list
    (depth_list.length - 1) 0 d c {} h0 hsteps]
  simp [pure, Except.pure]

/-- If frame 0 loads, the method resolves, all steps before iteration `t`
succeed and the step at `t` raises `e`, then `rgbd_odometry` propagates
exactly `e`: nothing is caught. -/
theorem rgbd_odometry_err (C : Collab) (depth_list color_list : List String)
    (intrinsic : Intrinsic) (config : Config) (method : Method)
    (d c : Image) (t : Nat) (e : Err)
    (h0 : loadFrame C depth_list color_list 0 = .ok (d, c))
    (hm : resolveMethod config.odometry_method = .ok method)
    (hlt : t < depth_list.length - 1)
    (hbefore : ∀ i < t,
      (seqStep C config intrinsic method depth_list color_list i).isOk
        = true)
    (hfail : seqStep C config intrinsic method depth_list color_list t =
      .error e) :
    rgbd_odometry C depth_list color_list intrinsic config = .error e := by
  rw [rgbd_odometry]
  simp only [bind, Except.bind, h0, hm]
  rw [List.range_eq_range']
  rw [seqLoop_err C config intrinsic method depth_list color_list e t
    (depth_list.length - 1) 0 d c {} h0 hlt
    (fun i hi => hbefore i (by
      have := List.mem_range'_1.mp hi
      omega))
    (by rw [Nat.zero_add]; exact hfail)]

/-- If the first failing keyframe load is that of the keyframe at position
`t` of the keyframe list (which has at least two entries), the loop-closure
driver raises exactly that load error: image-load failures are outside the
per-pair guard. -/
theorem rgbd_loop_closure_load_err (C : Collab)
    (depth_list color_list : List String) (intrinsic : Intrinsic)
    (config : Config) (t kt : Nat) (e : Err)
    (hI : config.odometry_loop_interval ≠ 0)
    (hM : 2 ≤ (pyRangeStep depth_list.length
      config.odometry_loop_interval).length)
    (ht : (pyRangeStep depth_list.length
      config.odometry_loop_interval).get? t = some kt)
    (he : loadFrame C depth_list color_list kt = .error e)
    (hbefore : ∀ s < t, ∀ x, (pyRangeStep depth_list.length
        config.odometry_loop_interval).get? s = some x →
      (loadFrame C depth_list color_list x).isOk = true) :
    rgbd_loop_closure C depth_list color_list intrinsic config = .error e := by
  rw [rgbd_loop_closure]
  simp only [hI, if_neg, ite_false]
  rcases hk : pyRangeStep depth_list.length config.odometry_loop_interval with
    _ | ⟨k0, _ | ⟨k1, rest⟩⟩
  · rw [hk] at hM; simp at hM
  · rw [hk] at hM; simp at hM
  · rw [hk] at ht hbefore
    cases t with
    | zero =>
      simp [List.get?] at ht
      subst ht
      rw [lcOuter]
      simp [bind, Except.bind, he]
    | succ t =>
      obtain ⟨⟨d1, c1⟩, h1⟩ := except_isOk_exists
        (hbefore 0 (Nat.succ_pos t) k0 rfl)
      rw [lcOuter]
      simp only [bind, Except.bind, h1]
      rw [lcInner_err C config intrinsic depth_list color_list k0
        ⟨c1, d1⟩ d1 kt e he (k1 :: rest) t {} ht
        (fun s hs x hx => hbefore (s + 1) (by omega) x hx)]

/-- `pyRangeStep` is strictly increasing for a positive stride. -/
theorem pyRangeStep_pairwise (n interval : Nat) (hI : interval ≠ 0) :
    (pyRangeStep n interval).Pairwise (· < ·) := by
  rw [pyRangeStep, List.pairwise_map]
  exact (List.pairwise_lt_range _).imp
    (fun h => (Nat.mul_lt_mul_right (Nat.pos_of_ne_zero hI)).mpr h)

/-- Both components of an ordered pair are members of the key list. -/
theorem ordPairs_mem (l : List Nat) (p : Nat × Nat) (hp : p ∈ ordPairs l) :
    p.1 ∈ l ∧ p.2 ∈ l := by
  induction l with
  | nil => simp [ordPairs] at hp
  | cons k ks ih =>
    rw [ordPairs] at hp
    rcases List.mem_append.mp hp with h | h
    · obtain ⟨k2, hk2, hpk⟩ := List.mem_map.mp h
      subst hpk
      exact ⟨List.mem_cons_self k ks, List.mem_cons_of_mem _ hk2⟩
    · obtain ⟨h1, h2⟩ := ih h
      exact ⟨List.mem_cons_of_mem _ h1, List.mem_cons_of_mem _ h2⟩

/-- Over a strictly increasing key list, every ordered pair is strictly
increasing. -/
theorem ordPairs_lt (l : List Nat) (hl : l.Pairwise (· < ·)) (p : Nat × Nat)
    (hp : p ∈ ordPairs l) : p.1 < p.2 := by
  induction l with
  | nil => simp [ordPairs] at hp
  | cons k ks ih =>
    rw [ordPairs] at hp
    rcases List.mem_append.mp hp with h | h
    · obtain ⟨k2, hk2, hpk⟩ := List.mem_map.mp h
      subst hpk
      exact (List.pairwise_cons.mp hl).1 k2 hk2
    · exact ih (List.pairwise_cons.mp hl).2 h

/-- A recorded triple carries its own pair as first component. -/
theorem lcTriple_fst (C : Collab) (config : Config) (intrinsic : Intrinsic)
    (depth_list color_list : List String) (p : Nat × Nat)
    (tr : (Nat × Nat) × Tensor4 × InfoMatrix)
    (h : lcTriple C config intrinsic depth_list color_list p = some tr) :
    tr.1 = p := by
  rw [lcTriple] at h
  cases hev : lcPairEval C config intrinsic depth_list color_list p with
  | error e => rw [hev] at h; simp at h
  | ok dri =>
    obtain ⟨d1, res, info⟩ := dri
    rw [hev] at h
    simp only at h
    by_cases hk : overlapKeep d1 info = true
    · rw [if_pos hk] at h
      cases h
      rfl
    · rw [if_neg hk] at h
      cases h

/-- The three data lists of the loop-closure accumulator, without the debug
log. -/
def LCAcc.core (acc : LCAcc) :
    List (Nat × Nat) × List Tensor4 × List InfoMatrix :=
  (acc.edges, acc.poses, acc.infos)

/-- `lcEval` reads only the three scalar options of the configuration. -/
theorem lcEval_cfg (C : Collab) (cfg1 cfg2 : Config) (intrinsic : Intrinsic)
    (rgbd_curr : RGBDImage) (depth_curr : Image) (rgbd_next : RGBDImage)
    (depth_next : Image)
    (hs : cfg1.depth_scale = cfg2.depth_scale)
    (hm : cfg1.depth_max = cfg2.depth_max)
    (hd : cfg1.odometry_distance_thr = cfg2.odometry_distance_thr) :
    lcEval C cfg1 intrinsic rgbd_curr depth_curr rgbd_next depth_next =
      lcEval C cfg2 intrinsic rgbd_curr depth_curr rgbd_next depth_next := by
  rw [lcEval, lcEval, hs, hm, hd]

/-- The pair body preserves equality of the data lists across two
configurations that agree on the scalar options; the debug flags may
differ. -/
theorem lcPair_core (C : Collab) (cfg1 cfg2 : Config) (intrinsic : Intrinsic)
    (key_i key_j : Nat) (rgbd_curr : RGBDImage) (depth_curr : Image)
    (rgbd_next : RGBDImage) (depth_next : Image) (acc1 acc2 : LCAcc)
    (hs : cfg1.depth_scale = cfg2.depth_scale)
    (hm : cfg1.depth_max = cfg2.depth_max)
    (hd : cfg1.odometry_distance_thr = cfg2.odometry_distance_thr)
    (hacc : acc1.core = acc2.core) :
    (lcPair C cfg1 intrinsic key_i key_j rgbd_curr depth_curr rgbd_next
      depth_next acc1).core =
    (lcPair C cfg2 intrinsic key_i key_j rgbd_curr depth_curr rgbd_next
      depth_next acc2).core := by
  rw [lcPair, lcPair,
    lcEval_cfg C cfg1 cfg2 intrinsic rgbd_curr depth_curr rgbd_next
      depth_next hs hm hd]
  cases lcEval C cfg2 intrinsic rgbd_curr depth_curr rgbd_next depth_next with
  | error e => exact hacc
  | ok ri =>
    obtain ⟨res, info⟩ := ri
    simp only
    have he' : acc1.edges = acc2.edges := congrArg Prod.fst hacc
    have hp' : acc1.poses = acc2.poses :=
      congrArg (fun x => x.2.1) hacc
    have hi' : acc1.infos = acc2.infos :=
      congrArg (fun x => x.2.2) hacc
    cases overlapKeep depth_curr info <;>
      cases cfg1.debug_mode <;> cases cfg2.debug_mode <;>
      simp [LCAcc.core, he', hp', hi']

/-- The inner loop preserves equality of the data lists across two
configurations that agree on the scalar options. -/
theorem lcInner_core (C : Collab) (cfg1 cfg2 : Config) (intrinsic : Intrinsic)
    (depth_list color_list : List String) (key_i : Nat)
    (hs : cfg1.depth_scale = cfg2.depth_scale)
    (hm : cfg1.depth_max = cfg2.depth_max)
    (hd : cfg1.odometry_distance_thr = cfg2.odometry_distance_thr) :
    ∀ (js : List Nat) (rgbd_curr : RGBDImage) (depth_curr : Image)
      (acc1 acc2 : LCAcc), acc1.core = acc2.core →
    Except.map LCAcc.core (lcInner C cfg1 intrinsic depth_list color_list
      key_i rgbd_curr depth_curr js acc1) =
    Except.map LCAcc.core (lcInner C cfg2 intrinsic depth_list color_list
      key_i rgbd_curr depth_curr js acc2) := by
  intro js
  induction js with
  | nil => intro _ _ acc1 acc2 hacc; simp [lcInner, Except.map, hacc]
  | cons key_j js ih =>
    intro rgbd_curr depth_curr acc1 acc2 hacc
    rw [lcInner, lcInner]
    cases h2 : loadFrame C depth_list color_list key_j with
    | error e => simp [bind, Except.bind]
    | ok dc =>
      obtain ⟨d2, c2⟩ := dc
      simp only [bind, Except.bind]
      exact ih rgbd_curr depth_curr _ _
        (lcPair_core C cfg1 cfg2 intrinsic key_i key_j rgbd_curr depth_curr
          ⟨c2, d2⟩ d2 acc1 acc2 hs hm hd hacc)

/-- The double loop preserves equality of the data lists across two
configurations that agree on the scalar options. -/
theorem lcOuter_core (C : Collab) (cfg1 cfg2 : Config) (intrinsic : Intrinsic)
    (depth_list color_list : List String)
    (hs : cfg1.depth_scale = cfg2.depth_scale)
    (hm : cfg1.depth_max = cfg2.depth_max)
    (hd : cfg1.odometry_distance_thr = cfg2.odometry_distance_thr) :
    ∀ (keys : List Nat) (acc1 acc2 : LCAcc), acc1.core = acc2.core →
    Except.map LCAcc.core (lcOuter C cfg1 intrinsic depth_list color_list
      keys acc1) =
    Except.map LCAcc.core (lcOuter C cfg2 intrinsic depth_list color_list
      keys acc2) := by
  intro keys
  induction keys with
  | nil => intro acc1 acc2 hacc; simp [lcOuter, Except.map, hacc]
  | cons key_i rest ih =>
    intro acc1 acc2 hacc
    cases rest with
    | nil => simp [lcOuter, Except.map, hacc]
    | cons key_j js =>
      rw [lcOuter, lcOuter]
      cases h1 : loadFrame C depth_list color_list key_i with
      | error e => simp [bind, Except.bind]
      | ok dc =>
        obtain ⟨d1, c1⟩ := dc
        simp only [bind, Except.bind]
        have hinner := lcInner_core C cfg1 cfg2 intrinsic depth_list
          color_list key_i hs hm hd (key_j :: js) ⟨c1, d1⟩ d1 acc1 acc2 hacc
        cases e1 : lcInner C cfg1 intrinsic depth_list color_list key_i
            ⟨c1, d1⟩ d1 (key_j :: js) acc1 with
        | error e =>
          rw [e1] at hinner
          cases e2 : lcInner C cfg2 intrinsic depth_list color_list key_i
              ⟨c1, d1⟩ d1 (key_j :: js) acc2 with
          | error e' =>
            rw [e2] at hinner
            simp only [Except.map] at hinner
            cases hinner
            rfl
          | ok a2 => rw [e2] at hinner; simp [Except.map] at hinner
        | ok a1 =>
          rw [e1] at hinner
          cases e2 : lcInner C cfg2 intrinsic depth_list color_list key_i
              ⟨c1, d1⟩ d1 (key_j :: js) acc2 with
          | error e' => rw [e2] at hinner; simp [Except.map] at hinner
          | ok a2 =>
            rw [e2] at hinner
            simp only [Except.map, Except.ok.injEq] at hinner
            exact ih a1 a2 hinner

/-- The pair body is identical across two configurations that agree on the
three scalar options and the debug flag (in particular it never reads
`odometry_method`). -/
theorem lcPair_cfg (C : Collab) (cfg1 cfg2 : Config) (intrinsic : Intrinsic)
    (key_i key_j : Nat) (rgbd_curr : RGBDImage) (depth_curr : Image)
    (rgbd_next : RGBDImage) (depth_next : Image) (acc : LCAcc)
    (hs : cfg1.depth_scale = cfg2.depth_scale)
    (hm : cfg1.depth_max = cfg2.depth_max)
    (hd : cfg1.odometry_distance_thr = cfg2.odometry_distance_thr)
    (hb : cfg1.debug_mode = cfg2.debug_mode) :
    lcPair C cfg1 intrinsic key_i key_j rgbd_curr depth_curr rgbd_next
      depth_next acc =
    lcPair C cfg2 intrinsic key_i key_j rgbd_curr depth_curr rgbd_next
      depth_next acc := by
  rw [lcPair, lcPair, hb,
    lcEval_cfg C cfg1 cfg2 intrinsic rgbd_curr depth_curr rgbd_next
      depth_next hs hm hd]

/-- The inner loop is identical across two configurations that agree on the
scalar options and the debug flag. -/
theorem lcInner_cfg (C : Collab) (cfg1 cfg2 : Config) (intrinsic : Intrinsic)
    (depth_list color_list : List String) (key_i : Nat)
    (hs : cfg1.depth_scale = cfg2.depth_scale)
    (hm : cfg1.depth_max = cfg2.depth_max)
    (hd : cfg1.odometry_distance_thr = cfg2.odometry_distance_thr)
    (hb : cfg1.debug_mode = cfg2.debug_mode) :
    ∀ (js : List Nat) (rgbd_curr : RGBDImage) (depth_curr : Image)
      (acc : LCAcc),
    lcInner C cfg1 intrinsic depth_list color_list key_i rgbd_curr depth_curr
      js acc =
    lcInner C cfg2 intrinsic depth_list color_list key_i rgbd_curr depth_curr
      js acc := by
  intro js
  induction js with
  | nil => intro _ _ _; rfl
  | cons key_j js ih =>
    intro rgbd_curr depth_curr acc
    rw [lcInner, lcInner]
    cases h2 : loadFrame C depth_list color_list key_j with
    | error e => rfl
    | ok dc =>
      obtain ⟨d2, c2⟩ := dc
      simp only [bind, Except.bind]
      rw [lcPair_cfg C cfg1 cfg2 intrinsic key_i key_j rgbd_curr depth_curr
        ⟨c2, d2⟩ d2 acc hs hm hd hb]
      exact ih rgbd_curr depth_curr _

/-- The double loop is identical across two configurations that agree on the
scalar options and the debug flag. -/
theorem lcOuter_cfg (C : Collab) (cfg1 cfg2 : Config) (intrinsic : Intrinsic)
    (depth_list color_list : List String)
    (hs : cfg1.depth_scale = cfg2.depth_scale)
    (hm : cfg1.depth_max = cfg2.depth_max)
    (hd : cfg1.odometry_distance_thr = cfg2.odometry_distance_thr)
    (hb : cfg1.debug_mode = cfg2.debug_mode) :
    ∀ (keys : List Nat) (acc : LCAcc),
    lcOuter C cfg1 intrinsic depth_list color_list keys acc =
    lcOuter C cfg2 intrinsic depth_list color_list keys acc := by
  intro keys
  induction keys with
  | nil => intro _; rfl
  | cons key_i rest ih =>
    intro acc
    cases rest with
    | nil => rfl
    | cons key_j js =>
      rw [lcOuter, lcOuter]
      cases h1 : loadFrame C depth_list color_list key_i with
      | error e => rfl
      | ok dc =>
        obtain ⟨d1, c1⟩ := dc
        simp only [bind, Except.bind]
        rw [lcInner_cfg C cfg1 cfg2 intrinsic depth_list color_list key_i
          hs hm hd hb (key_j :: js) ⟨c1, d1⟩ d1 acc]
        cases lcInner C cfg2 intrinsic depth_list color_list key_i
            ⟨c1, d1⟩ d1 (key_j :: js) acc with
        | error e => rfl
        | ok acc1 => exact ih acc1

/-- `rgbd_loop_closure` is identical across two configurations that agree on
everything it reads: the stride, the three scalar options and the debug
flag.  `device` and `odometry_method` are never read. -/
theorem rgbd_loop_closure_cfg (C : Collab)
    (depth_list color_list : List String) (intrinsic : Intrinsic)
    (cfg1 cfg2 : Config)
    (hi : cfg1.odometry_loop_interval = cfg2.odometry_loop_interval)
    (hs : cfg1.depth_scale = cfg2.depth_scale)
    (hm : cfg1.depth_max = cfg2.depth_max)
    (hd : cfg1.odometry_distance_thr = cfg2.odometry_distance_thr)
    (hb : cfg1.debug_mode = cfg2.debug_mode) :
    rgbd_loop_closure C depth_list color_list intrinsic cfg1 =
    rgbd_loop_closure C depth_list color_list intrinsic cfg2 := by
  rw [rgbd_loop_closure, rgbd_loop_closure, hi]
  by_cases h0 : cfg2.odometry_loop_interval = 0
  · simp [h0]
  · simp only [h0, if_neg, ite_false]
    rw [lcOuter_cfg C cfg1 cfg2 intrinsic depth_list color_list hs hm hd hb]

/-- `loadFrame` depends on the collaborators only through `read_image`. -/
theorem loadFrame_collab (C1 C2 : Collab) (depth_list color_list : List String)
    (k : Nat) (hr : C1.read_image = C2.read_image) :
    loadFrame C1 depth_list color_list k =
    loadFrame C2 depth_list color_list k := by
  rw [loadFrame, loadFrame, hr]

/-- The guarded region calls the odometry estimator only at the fixed
criteria list and the fixed `PointToPlane` method. -/
theorem lcEval_collab (C1 C2 : Collab) (config : Config)
    (intrinsic : Intrinsic) (rgbd_curr : RGBDImage) (depth_curr : Image)
    (rgbd_next : RGBDImage) (depth_next : Image)
    (hest : ∀ a b i t s m, C1.rgbd_odometry_multi_scale a b i t s m
        criteria_list Method.PointToPlane =
      C2.rgbd_odometry_multi_scale a b i t s m criteria_list
        Method.PointToPlane)
    (hinfo : C1.compute_odometry_information_matrix =
      C2.compute_odometry_information_matrix) :
    lcEval C1 config intrinsic rgbd_curr depth_curr rgbd_next depth_next =
    lcEval C2 config intrinsic rgbd_curr depth_curr rgbd_next depth_next := by
  rw [lcEval, lcEval, hest, hinfo]

/-- The pair body depends on the estimator oracle only through its value at
the fixed criteria list and `PointToPlane` method. -/
theorem lcPair_collab (C1 C2 : Collab) (config : Config)
    (intrinsic : Intrinsic) (key_i key_j : Nat) (rgbd_curr : RGBDImage)
    (depth_curr : Image) (rgbd_next : RGBDImage) (depth_next : Image)
    (acc : LCAcc)
    (hest : ∀ a b i t s m, C1.rgbd_odometry_multi_scale a b i t s m
        criteria_list Method.PointToPlane =
      C2.rgbd_odometry_multi_scale a b i t s m criteria_list
        Method.PointToPlane)
    (hinfo : C1.compute_odometry_information_matrix =
      C2.compute_odometry_information_matrix) :
    lcPair C1 config intrinsic key_i key_j rgbd_curr depth_curr rgbd_next
      depth_next acc =
    lcPair C2 config intrinsic key_i key_j rgbd_curr depth_curr rgbd_next
      depth_next acc := by
  rw [lcPair, lcPair, lcEval_collab C1 C2 config intrinsic rgbd_curr
    depth_curr rgbd_next depth_next hest hinfo]

/-- The inner loop depends on the collaborators only through `read_image`,
the information-matrix oracle, and the estimator oracle at the fixed
criteria list and `PointToPlane` method. -/
theorem lcInner_collab (C1 C2 : Collab) (config : Config)
    (intrinsic : Intrinsic) (depth_list color_list : List String)
    (key_i : Nat)
    (hr : C1.read_image = C2.read_image)
    (hest : ∀ a b i t s m, C1.rgbd_odometry_multi_scale a b i t s m
        criteria_list Method.PointToPlane =
      C2.rgbd_odometry_multi_scale a b i t s m criteria_list
        Method.PointToPlane)
    (hinfo : C1.compute_odometry_information_matrix =
      C2.compute_odometry_information_matrix) :
    ∀ (js : List Nat) (rgbd_curr : RGBDImage) (depth_curr : Image)
      (acc : LCAcc),
    lcInner C1 config intrinsic depth_list color_list key_i rgbd_curr
      depth_curr js acc =
    lcInner C2 config intrinsic depth_list color_list key_i rgbd_curr
      depth_curr js acc := by
  intro js
  induction js with
  | nil => intro _ _ _; rfl
  | cons key_j js ih =>
    intro rgbd_curr depth_curr acc
    rw [lcInner, lcInner,
      loadFrame_collab C1 C2 depth_list color_list key_j hr]
    cases loadFrame C2 depth_list color_list key_j with
    | error e => rfl
    | ok dc =>
      obtain ⟨d2, c2⟩ := dc
      simp only [bind, Except.bind]
      rw [lcPair_collab C1 C2 config intrinsic key_i key_j rgbd_curr
        depth_curr ⟨c2, d2⟩ d2 acc hest hinfo]
      exact ih rgbd_curr depth_curr _

/-- The double loop depends on the collaborators only through `read_image`,
the information-matrix oracle, and the estimator oracle at the fixed
criteria list and `PointToPlane` method. -/
theorem lcOuter_collab (C1 C2 : Collab) (config : Config)
    (intrinsic : Intrinsic) (depth_list color_list : List String)
    (hr : C1.read_image = C2.read_image)
    (hest : ∀ a b i t s m, C1.rgbd_odometry_multi_scale a b i t s m
        criteria_list Method.PointToPlane =
      C2.rgbd_odometry_multi_scale a b i t s m criteria_list
        Method.PointToPlane)
    (hinfo : C1.compute_odometry_information_matrix =
      C2.compute_odometry_information_matrix) :
    ∀ (keys : List Nat) (acc : LCAcc),
    lcOuter C1 config intrinsic depth_list color_list keys acc =
    lcOuter C2 config intrinsic depth_list color_list keys acc := by
  intro keys
  induction keys with
  | nil => intro _; rfl
  | cons key_i rest ih =>
    intro acc
    cases rest with
    | nil => rfl
    | cons key_j js =>
      rw [lcOuter, lcOuter,
        loadFrame_collab C1 C2 depth_list color_list key_i hr]
      cases loadFrame C2 depth_list color_list key_i with
      | error e => rfl
      | ok dc =>
        obtain ⟨d1, c1⟩ := dc
        simp only [bind, Except.bind]
        rw [lcInner_collab C1 C2 config intrinsic depth_list color_list key_i
          hr hest hinfo (key_j :: js) ⟨c1, d1⟩ d1 acc]
        cases lcInner C2 config intrinsic depth_list color_list key_i
            ⟨c1, d1⟩ d1 (key_j :: js) acc with
        | error e => rfl
        | ok acc1 => exact ih acc1

/-- The only error `listGet` raises is `IndexError`. -/
theorem listGet_err {α : Type} (l : List α) (i : Nat) (e : Err) :
    listGet l i = .error e → e = .indexError := by
  rw [listGet]
  cases l.get? i with
  | none => intro h; exact (Except.error.inj h).symm
  | some a => intro h; cases h

/-- Any error of `loadFrame` is an index error or comes untouched from
`read_image`. -/
theorem loadFrame_errsrc (C : Collab) (depth_list color_list : List String)
    (k : Nat) (e : Err)
    (h : loadFrame C depth_list color_list k = .error e) :
    e = .indexError ∨ ∃ p, C.read_image p = .error e := by
  rw [loadFrame] at h
  cases h1 : listGet depth_list k with
  | error e1 =>
    rw [h1] at h
    simp only [bind, Except.bind] at h
    cases h
    exact Or.inl (listGet_err depth_list k e h1)
  | ok p1 =>
    rw [h1] at h
    simp only [bind, Except.bind] at h
    cases h2 : C.read_image p1 with
    | error e2 =>
      rw [h2] at h
      cases h
      exact Or.inr ⟨p1, h2⟩
    | ok img1 =>
      rw [h2] at h
      simp only at h
      cases h3 : listGet color_list k with
      | error e3 =>
        rw [h3] at h
        cases h
        exact Or.inl (listGet_err color_list k e h3)
      | ok p2 =>
        rw [h3] at h
        simp only at h
        cases h4 : C.read_image p2 with
        | error e4 =>
          rw [h4] at h
          cases h
          exact Or.inr ⟨p2, h4⟩
        | ok img2 =>
          rw [h4] at h
          simp [pure, Except.pure] at h

/-- Any error of the inner loop comes from a frame load. -/
theorem lcInner_errsrc (C : Collab) (config : Config) (intrinsic : Intrinsic)
    (depth_list color_list : List String) (key_i : Nat) (e : Err) :
    ∀ (js : List Nat) (rgbd_curr : RGBDImage) (depth_curr : Image)
      (acc : LCAcc),
    lcInner C config intrinsic depth_list color_list key_i rgbd_curr
      depth_curr js acc = .error e →
    ∃ k, loadFrame C depth_list color_list k = .error e := by
  intro js
  induction js with
  | nil => intro _ _ _ h; rw [lcInner] at h; cases h
  | cons key_j js ih =>
    intro rgbd_curr depth_curr acc h
    rw [lcInner] at h
    cases h2 : loadFrame C depth_list color_list key_j with
    | error e2 =>
      rw [h2] at h
      simp only [bind, Except.bind] at h
      cases h
      exact ⟨key_j, h2⟩
    | ok dc =>
      obtain ⟨d2, c2⟩ := dc
      rw [h2] at h
      simp only [bind, Except.bind] at h
      exact ih rgbd_curr depth_curr _ h

/-- Any error of the double loop comes from a frame load. -/
theorem lcOuter_errsrc (C : Collab) (config : Config) (intrinsic : Intrinsic)
    (depth_list color_list : List String) (e : Err) :
    ∀ (keys : List Nat) (acc : LCAcc),
    lcOuter C config intrinsic depth_list color_list keys acc = .error e →
    ∃ k, loadFrame C depth_list color_list k = .error e := by
  intro keys
  induction keys with
  | nil => intro _ h; rw [lcOuter] at h; cases h
  | cons key_i rest ih =>
    intro acc h
    cases rest with
    | nil => rw [lcOuter] at h; cases h
    | cons key_j js =>
      rw [lcOuter] at h
      cases h1 : loadFrame C depth_list color_list key_i with
      | error e1 =>
        rw [h1] at h
        simp only [bind, Except.bind] at h
        cases h
        exact ⟨key_i, h1⟩
      | ok dc =>
        obtain ⟨d1, c1⟩ := dc
        rw [h1] at h
        simp only [bind, Except.bind] at h
        cases hin : lcInner C config intrinsic depth_list color_list key_i
            ⟨c1, d1⟩ d1 (key_j :: js) acc with
        | error e2 =>
          rw [hin] at h
          cases h
          exact lcInner_errsrc C config intrinsic depth_list color_list key_i
            e _ ⟨c1, d1⟩ d1 acc hin
        | ok acc1 =>
          rw [hin] at h
          exact ih acc1 h

/-- Any error escaping `rgbd_loop_closure` is the zero-stride `ValueError`,
an index error, or comes untouched from `read_image`: the two estimator
oracles can never make the driver raise. -/
theorem rgbd_loop_closure_errsrc (C : Collab)
    (depth_list color_list : List String) (intrinsic : Intrinsic)
    (config : Config) (e : Err)
    (h : rgbd_loop_closure C depth_list color_list intrinsic config =
      .error e) :
    e = .valueError ∨ e = .indexError ∨ ∃ p, C.read_image p = .error e := by
  rw [rgbd_loop_closure] at h
  by_cases hI : config.odometry_loop_interval = 0
  · simp only [hI, ite_true] at h
    exact Or.inl (Except.error.inj h).symm
  · simp only [hI, if_neg, ite_false] at h
    cases hout : lcOuter C config intrinsic depth_list color_list
        (pyRangeStep depth_list.length config.odometry_loop_interval) {} with
    | error e1 =>
      rw [hout] at h
      simp only [bind, Except.bind] at h
      cases h
      obtain ⟨k, hk⟩ := lcOuter_errsrc C config intrinsic depth_list
        color_list e _ {} hout
      rcases loadFrame_errsrc C depth_list color_list k e hk with h | h
      · exact Or.inr (Or.inl h)
      · exact Or.inr (Or.inr h)
    | ok acc =>
      rw [hout] at h
      simp [bind, Except.bind, pure, Except.pure] at h

/-- Converse characterisation of the sequential loop: whenever it returns
normally, every step succeeded and the result extends the accumulator with
the traced edges, poses and information matrices. -/
theorem seqLoop_ok_char (C : Collab) (config : Config) (intrinsic : Intrinsic)
    (method : Method) (depth_list color_list : List String) :
    ∀ (len s : Nat) (d c : Image) (acc acc' : SAcc),
    loadFrame C depth_list color_list s = .ok (d, c) →
    seqLoop C config intrinsic method depth_list color_list ⟨c, d⟩ d
      (List.range' s len) acc = .ok acc' →
    acc' = { edges := acc.edges ++ (List.range' s len).map (fun i => (i, i + 1))
             poses := acc.poses ++ (List.range' s len).map
               (stepPose C config intrinsic method depth_list color_list)
             infos := acc.infos ++ (List.range' s len).map
               (stepInfo C config intrinsic method depth_list color_list) } := by
  intro len
  induction len with
  | zero =>
    intro s d c acc acc' _ hrun
    rw [show List.range' s 0 = [] from rfl, seqLoop] at hrun
    cases hrun
    simp [List.range']
  | succ n ih =>
    intro s d c acc acc' h_s hrun
    rw [show List.range' s (n + 1) = s :: List.range' (s + 1) n from rfl,
      seqLoop] at hrun
    cases h2 : loadFrame C depth_list color_list (s + 1) with
    | error e => rw [h2] at hrun; simp [bind, Except.bind] at hrun
    | ok dc2 =>
      obtain ⟨d2, c2⟩ := dc2
      rw [h2] at hrun
      simp only [bind, Except.bind] at hrun
      cases h3 : C.rgbd_odometry_multi_scale ⟨c, d⟩ ⟨c2, d2⟩ intrinsic eye4
          config.depth_scale config.depth_max criteria_list method with
      | error e => rw [h3] at hrun; simp at hrun
      | ok res =>
        rw [h3] at hrun
        simp only at hrun
        cases h4 : C.compute_odometry_information_matrix d d2 intrinsic
            res.transformation config.odometry_distance_thr
            config.depth_scale config.depth_max with
        | error e => rw [h4] at hrun; simp at hrun
        | ok info =>
          rw [h4] at hrun
          simp only at hrun
          have hstep : seqStep C config intrinsic method depth_list color_list
              s = .ok (res, info) := by
            rw [seqStep]
            simp [bind, Except.bind, pure, Except.pure, h_s, h2, h3, h4]
          have := ih (s + 1) d2 c2 _ acc' h2 hrun
          subst this
          rw [show List.range' s (n + 1) = s :: List.range' (s + 1) n
            from rfl]
          simp [stepPose, stepInfo, hstep, List.append_assoc]

/-- Whenever the sequential loop returns normally, every step of its range
succeeded. -/
theorem seqLoop_ok_steps (C : Collab) (config : Config)
    (intrinsic : Intrinsic) (method : Method)
    (depth_list color_list : List String) :
    ∀ (len s : Nat) (d c : Image) (acc acc' : SAcc),
    loadFrame C depth_list color_list s = .ok (d, c) →
    seqLoop C config intrinsic method depth_list color_list ⟨c, d⟩ d
      (List.range' s len) acc = .ok acc' →
    ∀ i ∈ List.range' s len,
      (seqStep C config intrinsic method depth_list color_list i).isOk
        = true := by
  intro len
  induction len with
  | zero => intro s d c acc acc' _ _ i hi; simp [List.range'] at hi
  | succ n ih =>
    intro s d c acc acc' h_s hrun i hi
    rw [show List.range' s (n + 1) = s :: List.range' (s + 1) n from rfl,
      seqLoop] at hrun
    cases h2 : loadFrame C depth_list color_list (s + 1) with
    | error e => rw [h2] at hrun; simp [bind, Except.bind] at hrun
    | ok dc2 =>
      obtain ⟨d2, c2⟩ := dc2
      rw [h2] at hrun
      simp only [bind, Except.bind] at hrun
      cases h3 : C.rgbd_odometry_multi_scale ⟨c, d⟩ ⟨c2, d2⟩ intrinsic eye4
          config.depth_scale config.depth_max criteria_list method with
      | error e => rw [h3] at hrun; simp at hrun
      | ok res =>
        rw [h3] at hrun
        simp only at hrun
        cases h4 : C.compute_odometry_information_matrix d d2 intrinsic
            res.transformation config.odometry_distance_thr
            config.depth_scale config.depth_max with
        | error e => rw [h4] at hrun; simp at hrun
        | ok info =>
          rw [h4] at hrun
          simp only at hrun
          have hstep : seqStep C config intrinsic method depth_list
              color_list s = .ok (res, info) := by
            rw [seqStep]
            simp [bind, Except.bind, pure, Except.pure, h_s, h2, h3, h4]
          rw [show List.range' s (n + 1) = s :: List.range' (s + 1) n
            from rfl] at hi
          rcases List.mem_cons.mp hi with h | h
          · subst h; rw [hstep]; rfl
          · exact ih (s + 1) d2 c2 _ acc' h2 hrun i h

/-- Converse characterisation of `rgbd_odometry`: whenever it returns
normally, frame 0 loaded, the method resolved, and the output is exactly the
consecutive-pair trace. -/
theorem rgbd_odometry_ok_char (C : Collab)
    (depth_list color_list : List String) (intrinsic : Intrinsic)
    (config : Config)
    (out : List (Nat × Nat) × List Tensor4 × List InfoMatrix)
    (hrun : rgbd_odometry C depth_list color_list intrinsic config =
      .ok out) :
    ∃ method d c, loadFrame C depth_list color_list 0 = .ok (d, c) ∧
      resolveMethod config.odometry_method = .ok method ∧
      out = ((List.range (depth_list.length - 1)).map (fun i => (i, i + 1)),
             (List.range (depth_list.length - 1)).map
               (stepPose C config intrinsic method depth_list color_list),
             (List.range (depth_list.length - 1)).map
               (stepInfo C config intrinsic method depth_list color_list)) ∧
      ∀ i ∈ List.range (depth_list.length - 1),
        (seqStep C config intrinsic method depth_list color_list i).isOk
          = true := by
  rw [rgbd_odometry] at hrun
  cases h0 : loadFrame C depth_list color_list 0 with
  | error e => rw [h0] at hrun; simp [bind, Except.bind] at hrun
  | ok dc =>
    obtain ⟨d, c⟩ := dc
    rw [h0] at hrun
    simp only [bind, Except.bind] at hrun
    cases hm : resolveMethod config.odometry_method with
    | error e => rw [hm] at hrun; simp at hrun
    | ok method =>
      rw [hm] at hrun
      simp only at hrun
      cases hloop : seqLoop C config intrinsic method depth_list color_list
          ⟨c, d⟩ d (List.range (depth_list.length - 1)) {} with
      | error e => rw [hloop] at hrun; simp at hrun
      | ok acc =>
        rw [hloop] at hrun
        simp only [pure, Except.pure] at hrun
        rw [List.range_eq_range'] at hloop
        have hacc := seqLoop_ok_char C config intrinsic method depth_list
          color_list (depth_list.length - 1) 0 d c {} acc h0 hloop
        cases hrun
        subst hacc
        refine ⟨method, d, c, rfl, rfl, ?_, ?_⟩
        · rw [List.range_eq_range']
          rfl
        · rw [List.range_eq_range']
          exact seqLoop_ok_steps C config intrinsic method depth_list
            color_list (depth_list.length - 1) 0 d c {} _ h0 hloop

/-! Concrete fixtures used by witnesses and counterexamples. -/

/-- A concrete 4x5 image. -/
def imgA : Image := ⟨4, 5, 0⟩

/-- A collaborator bundle whose calls all succeed, with an information
matrix whose diagonal passes the overlap filter for `imgA` (20 / 20 = 1 >
0.3). -/
def okCollab : Collab where
  read_image := fun _ => .ok imgA
  rgbd_odometry_multi_scale := fun _ _ _ _ _ _ _ _ => .ok ⟨eye4⟩
  compute_odometry_information_matrix := fun _ _ _ _ _ _ _ =>
    .ok ⟨fun _ _ => 20⟩

/-- A concrete configuration with a supported method and stride 1. -/
def cfgA : Config := ⟨"CPU:0", 1, 1000, 3, 7 / 100, "hybrid", false⟩

/-- Three depth paths. -/
def dlA : List String := ["d0", "d1", "d2"]

/-- Three color paths. -/
def clA : List String := ["c0", "c1", "c2"]

/-- A concrete intrinsic matrix. -/
def intrA : Intrinsic := ⟨fun _ _ => 0⟩

/-- A collaborator bundle whose odometry estimator always raises. -/
def failEstCollab : Collab where
  read_image := fun _ => .ok imgA
  rgbd_odometry_multi_scale := fun _ _ _ _ _ _ _ _ =>
    .error .alignmentFailure
  compute_odometry_information_matrix := fun _ _ _ _ _ _ _ =>
    .ok ⟨fun _ _ => 20⟩

/-- A collaborator bundle whose image reads always raise. -/
def failLoadCollab : Collab where
  read_image := fun _ => .error (.other 7)
  rgbd_odometry_multi_scale := fun _ _ _ _ _ _ _ _ => .ok ⟨eye4⟩
  compute_odometry_information_matrix := fun _ _ _ _ _ _ _ =>
    .ok ⟨fun _ _ => 20⟩

/-- A collaborator bundle where only the read of path `d1` raises. -/
def failD1Collab : Collab where
  read_image := fun p =>
    if p = "d1" then .error (.loadFailure "d1") else .ok imgA
  rgbd_odometry_multi_scale := fun _ _ _ _ _ _ _ _ => .ok ⟨eye4⟩
  compute_odometry_information_matrix := fun _ _ _ _ _ _ _ =>
    .ok ⟨fun _ _ => 20⟩

/-- The configuration `cfgA` with an unsupported odometry method string. -/
def cfgBogus : Config := ⟨"CPU:0", 1, 1000, 3, 7 / 100, "bogus", false⟩

/-- An unrecognised method string makes `resolveMethod` raise. -/
theorem resolveMethod_unsupported (s : String)
    (h1 : s ≠ "point2plane") (h2 : s ≠ "intensity") (h3 : s ≠ "hybrid") :
    resolveMethod s = .error (.unsupportedMethod s) := by
  rw [resolveMethod, if_neg h1, if_neg h2, if_neg h3]

/-- Two collaborator bundles agreeing on the two frame-`k` paths load frame
`k` identically. -/
theorem loadFrame_agree (C C2 : Collab) (depth_list color_list : List String)
    (k : Nat) (p q : String)
    (hp : listGet depth_list k = .ok p) (hq : listGet color_list k = .ok q)
    (h1 : C2.read_image p = C.read_image p)
    (h2 : C2.read_image q = C.read_image q) :
    loadFrame C2 depth_list color_list k =
    loadFrame C depth_list color_list k := by
  rw [loadFrame, loadFrame]
  simp [bind, Except.bind, hp, hq, h1, h2]

/-- C1: on an index-aligned input of N ≥ 2 frame paths on which frame 0
loads, the configured method resolves and every sequential step (loads and
both estimator calls) succeeds, `rgbd_odometry` returns three sequences of
equal length N-1 whose edges are exactly (0,1),(1,2),...,(N-2,N-1) in that
order, each consecutive pair appended unconditionally. -/
theorem claim_C1 (C : Collab) (depth_list color_list : List String)
    (intrinsic : Intrinsic) (config : Config) (method : Method) (N : Nat)
    (hN : 2 ≤ N) (hdl : depth_list.length = N) (hcl : color_list.length = N)
    (hm : resolveMethod config.odometry_method = .ok method)
    (h0 : (loadFrame C depth_list color_list 0).isOk = true)
    (hsteps : ∀ i, i < N - 1 →
      (seqStep C config intrinsic method depth_list color_list i).isOk
        = true) :
    ∃ edges poses infos,
      rgbd_odometry C depth_list color_list intrinsic config =
        .ok (edges, poses, infos) ∧
      edges = (List.range (N - 1)).map (fun i => (i, i + 1)) ∧
      edges.length = N - 1 ∧ poses.length = N - 1 ∧ infos.length = N - 1 := by
  obtain ⟨⟨d, c⟩, h0'⟩ := except_isOk_exists h0
  subst hdl
  refine ⟨_, _, _, rgbd_odometry_spec C depth_list color_list intrinsic
    config method d c h0' hm
    (fun i hi => hsteps i (List.mem_range.mp hi)), rfl, ?_, ?_, ?_⟩ <;> simp

/-- C1 witness: three frames, all calls succeeding. -/
theorem claim_C1_witness :
    ∃ edges poses infos,
      rgbd_odometry okCollab dlA clA intrA cfgA = .ok (edges, poses, infos) ∧
      edges = (List.range (3 - 1)).map (fun i => (i, i + 1)) ∧
      edges.length = 3 - 1 ∧ poses.length = 3 - 1 ∧ infos.length = 3 - 1 :=
  claim_C1 okCollab dlA clA intrA cfgA Method.Hybrid 3 (by decide) rfl rfl
    rfl (by decide) (by decide)

/-- C6: `rgbd_odometry` catches nothing.  If frame 0 loads and the method
resolves, but the step at some iteration `t` raises `e` (a failed image
load, odometry-estimator call or information-matrix call) while all earlier
iterations succeed, the whole run aborts with exactly `e`. -/
theorem claim_C6 (C : Collab) (depth_list color_list : List String)
    (intrinsic : Intrinsic) (config : Config) (method : Method)
    (d c : Image) (t : Nat) (e : Err)
    (h0 : loadFrame C depth_list color_list 0 = .ok (d, c))
    (hm : resolveMethod config.odometry_method = .ok method)
    (hlt : t < depth_list.length - 1)
    (hbefore : ∀ i < t,
      (seqStep C config intrinsic method depth_list color_list i).isOk
        = true)
    (hfail : seqStep C config intrinsic method depth_list color_list t =
      .error e) :
    rgbd_odometry C depth_list color_list intrinsic config = .error e :=
  rgbd_odometry_err C depth_list color_list intrinsic config method d c t e
    h0 hm hlt hbefore hfail

/-- C6 witness: the estimator raises `AlignmentFailure` at the first pair
and the whole sequential run aborts with it. -/
theorem claim_C6_witness :
    rgbd_odometry failEstCollab dlA clA intrA cfgA =
      .error .alignmentFailure :=
  claim_C6 failEstCollab dlA clA intrA cfgA Method.Hybrid imgA imgA 0
    .alignmentFailure rfl rfl (by decide) (by decide) rfl

/-- C4 counterexample: with an unsupported method and an image reader that
always raises `other 7`, the run fails with the load error, not with the
unsupported-method error — so the depth and color files of frame 0 are read
BEFORE the method check, refuting failure prior to any image load. -/
theorem claim_C4_counterexample :
    resolveMethod cfgBogus.odometry_method =
      .error (.unsupportedMethod "bogus") ∧
    rgbd_odometry failLoadCollab dlA clA intrA cfgBogus =
      .error (.other 7) ∧
    Err.other 7 ≠ Err.unsupportedMethod "bogus" :=
  ⟨rfl, rfl, by decide⟩

/-- C4 (amended): with an unsupported `odometry_method`, `rgbd_odometry`
fails with the unsupported-method error at configuration-resolution time,
after frame 0 is loaded but before any estimation and before any frame
beyond index 0 is read: the result is unchanged under any replacement of
the collaborators that agrees on the two frame-0 paths. -/
theorem claim_C4 (C C2 : Collab) (depth_list color_list : List String)
    (intrinsic : Intrinsic) (config : Config) (d c : Image) (p q : String)
    (hbad1 : config.odometry_method ≠ "point2plane")
    (hbad2 : config.odometry_method ≠ "intensity")
    (hbad3 : config.odometry_method ≠ "hybrid")
    (h0 : loadFrame C depth_list color_list 0 = .ok (d, c))
    (hp : listGet depth_list 0 = .ok p) (hq : listGet color_list 0 = .ok q)
    (ha1 : C2.read_image p = C.read_image p)
    (ha2 : C2.read_image q = C.read_image q) :
    rgbd_odometry C depth_list color_list intrinsic config =
      .error (.unsupportedMethod config.odometry_method) ∧
    rgbd_odometry C2 depth_list color_list intrinsic config =
      rgbd_odometry C depth_list color_list intrinsic config := by
  have hm := resolveMethod_unsupported config.odometry_method hbad1 hbad2
    hbad3
  constructor
  · rw [rgbd_odometry]
    simp [bind, Except.bind, h0, hm]
  · rw [rgbd_odometry, rgbd_odometry,
      loadFrame_agree C C2 depth_list color_list 0 p q hp hq ha1 ha2]
    simp [bind, Except.bind, h0, hm]

/-- C4 witness: the run with a bogus method raises the unsupported-method
error after frame 0 loads, and is unchanged when every read beyond the
frame-0 paths would raise. -/
theorem claim_C4_witness :
    rgbd_odometry okCollab dlA clA intrA cfgBogus =
      .error (.unsupportedMethod cfgBogus.odometry_method) ∧
    rgbd_odometry failD1Collab dlA clA intrA cfgBogus =
      rgbd_odometry okCollab dlA clA intrA cfgBogus :=
  claim_C4 okCollab failD1Collab dlA clA intrA cfgBogus imgA imgA "d0" "c0"
    (by decide) (by decide) (by decide) rfl rfl rfl rfl rfl

/-- C7: a keyframe image-load failure in `rgbd_loop_closure` is not covered
by the per-pair guard: if the keyframe at position `t` of the (at least two
long) keyframe list is the first whose load raises `e`, the driver aborts
with exactly `e`. -/
theorem claim_C7 (C : Collab) (depth_list color_list : List String)
    (intrinsic : Intrinsic) (config : Config) (t kt : Nat) (e : Err)
    (hI : config.odometry_loop_interval ≠ 0)
    (hM : 2 ≤ (pyRangeStep depth_list.length
      config.odometry_loop_interval).length)
    (ht : (pyRangeStep depth_list.length
      config.odometry_loop_interval).get? t = some kt)
    (he : loadFrame C depth_list color_list kt = .error e)
    (hbefore : ∀ s < t, ∀ x, (pyRangeStep depth_list.length
        config.odometry_loop_interval).get? s = some x →
      (loadFrame C depth_list color_list x).isOk = true) :
    rgbd_loop_closure C depth_list color_list intrinsic config = .error e :=
  rgbd_loop_closure_load_err C depth_list color_list intrinsic config t kt e
    hI hM ht he hbefore

/-- C7 witness: the load of keyframe 1 raises and the loop-closure driver
aborts with that very error, untouched. -/
theorem claim_C7_witness :
    rgbd_loop_closure failD1Collab dlA clA intrA cfgA =
      .error (.loadFailure "d1") :=
  claim_C7 failD1Collab dlA clA intrA cfgA 1 1 (.loadFailure "d1")
    (by decide) (by decide) rfl rfl (by decide)

/-- C5: independently for each driver and for every input, whenever that
driver returns, its three sequences have equal lengths and are pairwise
aligned: the k-th pose and k-th info are the ones computed for the frame
pair of the k-th edge (also when loop-closure pairs were skipped or
filtered out, and regardless of what the other driver would do). -/
theorem claim_C5 (C : Collab) (depth_list color_list : List String)
    (intrinsic : Intrinsic) (config : Config) :
    (∀ (es1 : List (Nat × Nat)) (ps1 : List Tensor4)
      (is1 : List InfoMatrix),
      rgbd_odometry C depth_list color_list intrinsic config =
        .ok (es1, ps1, is1) →
      es1.length = ps1.length ∧ ps1.length = is1.length ∧
      ∀ t (h1 : t < es1.length) (h2 : t < ps1.length) (h3 : t < is1.length),
      ∃ method res info,
        resolveMethod config.odometry_method = .ok method ∧
        (es1.get ⟨t, h1⟩).2 = (es1.get ⟨t, h1⟩).1 + 1 ∧
        seqStep C config intrinsic method depth_list color_list
          (es1.get ⟨t, h1⟩).1 = .ok (res, info) ∧
        ps1.get ⟨t, h2⟩ = res.transformation ∧ is1.get ⟨t, h3⟩ = info) ∧
    (∀ (es2 : List (Nat × Nat)) (ps2 : List Tensor4) (is2 : List InfoMatrix)
      (log2 : List String),
      rgbd_loop_closure C depth_list color_list intrinsic config =
        .ok (es2, ps2, is2, log2) →
      es2.length = ps2.length ∧ ps2.length = is2.length ∧
      ∀ t (h1 : t < es2.length) (h2 : t < ps2.length) (h3 : t < is2.length),
      lcTriple C config intrinsic depth_list color_list (es2.get ⟨t, h1⟩) =
        some (es2.get ⟨t, h1⟩, ps2.get ⟨t, h2⟩, is2.get ⟨t, h3⟩)) := by
  constructor
  · intro es1 ps1 is1 hrun1
    obtain ⟨method, d, c, h0, hm, hout, hsteps⟩ :=
      rgbd_odometry_ok_char C depth_list color_list intrinsic config
        (es1, ps1, is1) hrun1
    have he1 : es1 = (List.range (depth_list.length - 1)).map
        (fun i => (i, i + 1)) := congrArg (fun x => x.1) hout
    have hp1 : ps1 = (List.range (depth_list.length - 1)).map
        (stepPose C config intrinsic method depth_list color_list) :=
      congrArg (fun x => x.2.1) hout
    have hi1 : is1 = (List.range (depth_list.length - 1)).map
        (stepInfo C config intrinsic method depth_list color_list) :=
      congrArg (fun x => x.2.2) hout
    subst he1 hp1 hi1
    refine ⟨by simp, by simp, ?_⟩
    intro t h1 h2 h3
    have ht : t < depth_list.length - 1 := by simpa using h1
    have hok := hsteps t (List.mem_range.mpr ht)
    obtain ⟨⟨res, info⟩, hstep⟩ := except_isOk_exists hok
    refine ⟨method, res, info, hm, by simp, ?_, ?_, ?_⟩
    · simpa using hstep
    · simp [stepPose, hstep]
    · simp [stepInfo, hstep]
  · intro es2 ps2 is2 log2 hrun2
    have hchar := rgbd_loop_closure_ok_char C depth_list color_list intrinsic
      config (es2, ps2, is2, log2) hrun2
    have he2 : es2 = (lcTriples C config intrinsic depth_list color_list
        (ordPairs (pyRangeStep depth_list.length
          config.odometry_loop_interval))).map (fun t => t.1) :=
      congrArg (fun x => x.1) hchar
    have hp2 : ps2 = (lcTriples C config intrinsic depth_list color_list
        (ordPairs (pyRangeStep depth_list.length
          config.odometry_loop_interval))).map (fun t => t.2.1) :=
      congrArg (fun x => x.2.1) hchar
    have hi2 : is2 = (lcTriples C config intrinsic depth_list color_list
        (ordPairs (pyRangeStep depth_list.length
          config.odometry_loop_interval))).map (fun t => t.2.2) :=
      congrArg (fun x => x.2.2.1) hchar
    subst he2 hp2 hi2
    refine ⟨by simp, by simp, ?_⟩
    intro t h1 h2 h3
    have hT : t < (lcTriples C config intrinsic depth_list color_list
        (ordPairs (pyRangeStep depth_list.length
          config.odometry_loop_interval))).length := by simpa using h1
    have hmem := List.get_mem (lcTriples C config intrinsic depth_list
      color_list (ordPairs (pyRangeStep depth_list.length
        config.odometry_loop_interval))) t hT
    obtain ⟨p, hpP, hFp⟩ := List.mem_filterMap.mp hmem
    have hfst := lcTriple_fst C config intrinsic depth_list color_list p _
      hFp
    have hes : ((lcTriples C config intrinsic depth_list color_list
        (ordPairs (pyRangeStep depth_list.length
          config.odometry_loop_interval))).map (fun t => t.1)).get ⟨t, h1⟩ =
        ((lcTriples C config intrinsic depth_list color_list
        (ordPairs (pyRangeStep depth_list.length
          config.odometry_loop_interval))).get ⟨t, hT⟩).1 := by simp
    have hps : ((lcTriples C config intrinsic depth_list color_list
        (ordPairs (pyRangeStep depth_list.length
          config.odometry_loop_interval))).map (fun t => t.2.1)).get ⟨t, h2⟩ =
        ((lcTriples C config intrinsic depth_list color_list
        (ordPairs (pyRangeStep depth_list.length
          config.odometry_loop_interval))).get ⟨t, hT⟩).2.1 := by simp
    have his : ((lcTriples C config intrinsic depth_list color_list
        (ordPairs (pyRangeStep depth_list.length
          config.odometry_loop_interval))).map (fun t => t.2.2)).get ⟨t, h3⟩ =
        ((lcTriples C config intrinsic depth_list color_list
        (ordPairs (pyRangeStep depth_list.length
          config.odometry_loop_interval))).get ⟨t, hT⟩).2.2 := by simp
    rw [hes, hps, his, hfst, hFp, ← hfst]

/-- Inversion of a successful pair evaluation: both loads succeeded and the
guarded region returned the pose and matrix, with the outer depth image as
recorded. -/
theorem lcPairEval_ok_inv (C : Collab) (config : Config)
    (intrinsic : Intrinsic) (depth_list color_list : List String)
    (p : Nat × Nat) (d1 : Image) (res : OdometryResult) (info : InfoMatrix)
    (h : lcPairEval C config intrinsic depth_list color_list p =
      .ok (d1, res, info)) :
    ∃ c1 d2 c2, loadFrame C depth_list color_list p.1 = .ok (d1, c1) ∧
      loadFrame C depth_list color_list p.2 = .ok (d2, c2) ∧
      lcEval C config intrinsic ⟨c1, d1⟩ d1 ⟨c2, d2⟩ d2 = .ok (res, info) := by
  rw [lcPairEval] at h
  cases h1 : loadFrame C depth_list color_list p.1 with
  | error e => rw [h1] at h; simp [bind, Except.bind] at h
  | ok dc1 =>
    obtain ⟨d1', c1⟩ := dc1
    rw [h1] at h
    simp only [bind, Except.bind] at h
    cases h2 : loadFrame C depth_list color_list p.2 with
    | error e => rw [h2] at h; simp at h
    | ok dc2 =>
      obtain ⟨d2, c2⟩ := dc2
      rw [h2] at h
      simp only at h
      cases h3 : lcEval C config intrinsic ⟨c1, d1'⟩ d1' ⟨c2, d2⟩ d2 with
      | error e => rw [h3] at h; simp at h
      | ok ri =>
        obtain ⟨res2, info2⟩ := ri
        rw [h3] at h
        simp only [pure, Except.pure, Except.ok.injEq, Prod.mk.injEq] at h
        obtain ⟨hd, hr, hi2⟩ := h
        subst hd
        subst hr
        subst hi2
        refine ⟨c1, d2, c2, ?_, ?_, ?_⟩ <;> simp [h1, h2, h3]

/-- Inversion of a recorded triple: the pair evaluation succeeded, the
filter passed, and the triple is the pair with its pose and matrix. -/
theorem lcTriple_some_inv (C : Collab) (config : Config)
    (intrinsic : Intrinsic) (depth_list color_list : List String)
    (p : Nat × Nat) (tr : (Nat × Nat) × Tensor4 × InfoMatrix)
    (h : lcTriple C config intrinsic depth_list color_list p = some tr) :
    ∃ d1 res info,
      lcPairEval C config intrinsic depth_list color_list p =
        .ok (d1, res, info) ∧
      overlapKeep d1 info = true ∧ tr = (p, res.transformation, info) := by
  rw [lcTriple] at h
  cases hev : lcPairEval C config intrinsic depth_list color_list p with
  | error e => rw [hev] at h; simp at h
  | ok dri =>
    obtain ⟨d1, res, info⟩ := dri
    rw [hev] at h
    simp only at h
    by_cases hk : overlapKeep d1 info = true
    · rw [if_pos hk] at h
      exact ⟨d1, res, info, rfl, hk, (Option.some.inj h).symm⟩
    · rw [if_neg hk] at h
      cases h

/-- A pair whose evaluation succeeded but whose filter failed is never
recorded. -/
theorem lcTriple_none_of_reject (C : Collab) (config : Config)
    (intrinsic : Intrinsic) (depth_list color_list : List String)
    (p : Nat × Nat) (d1 : Image) (res : OdometryResult) (info : InfoMatrix)
    (hev : lcPairEval C config intrinsic depth_list color_list p =
      .ok (d1, res, info))
    (hk : overlapKeep d1 info = false) :
    lcTriple C config intrinsic depth_list color_list p = none := by
  rw [lcTriple, hev]
  simp [hk]

/-- If `rgbd_loop_closure` returned, the stride is positive. -/
theorem rgbd_loop_closure_ok_interval (C : Collab)
    (depth_list color_list : List String) (intrinsic : Intrinsic)
    (config : Config)
    (out : List (Nat × Nat) × List Tensor4 × List InfoMatrix × List String)
    (hrun : rgbd_loop_closure C depth_list color_list intrinsic config =
      .ok out) : config.odometry_loop_interval ≠ 0 := by
  intro h0
  rw [rgbd_loop_closure] at hrun
  simp [h0] at hrun

/-- C2: every edge returned by `rgbd_loop_closure` is a pair of keyframe
indices from `range(0, n_files, interval)` with the first strictly below
the second, and the information matrix at the same position passes the
overlap filter computed with the depth image of the first keyframe; and a
that was evaluated but failed the filter is not recorded. -/
theorem claim_C2 (C : Collab) (depth_list color_list : List String)
    (intrinsic : Intrinsic) (config : Config)
    (es : List (Nat × Nat)) (ps : List Tensor4) (infs : List InfoMatrix)
    (log : List String)
    (hrun : rgbd_loop_closure C depth_list color_list intrinsic config =
      .ok (es, ps, infs, log)) :
    (∀ t (h1 : t < es.length) (h2 : t < infs.length),
      (es.get ⟨t, h1⟩).1 ∈ pyRangeStep depth_list.length
        config.odometry_loop_interval ∧
      (es.get ⟨t, h1⟩).2 ∈ pyRangeStep depth_list.length
        config.odometry_loop_interval ∧
      (es.get ⟨t, h1⟩).1 < (es.get ⟨t, h1⟩).2 ∧
      ∃ d1 c1, loadFrame C depth_list color_list (es.get ⟨t, h1⟩).1 =
          .ok (d1, c1) ∧
        overlapKeep d1 (infs.get ⟨t, h2⟩) = true) ∧
    (∀ p : Nat × Nat, ∀ d1 res info,
      lcPairEval C config intrinsic depth_list color_list p =
        .ok (d1, res, info) →
      overlapKeep d1 info = false → p ∉ es) := by
  have hI := rgbd_loop_closure_ok_interval C depth_list color_list intrinsic
    config (es, ps, infs, log) hrun
  have hchar := rgbd_loop_closure_ok_char C depth_list color_list intrinsic
    config (es, ps, infs, log) hrun
  have he : es = (lcTriples C config intrinsic depth_list color_list
      (ordPairs (pyRangeStep depth_list.length
        config.odometry_loop_interval))).map (fun t => t.1) :=
    congrArg (fun x => x.1) hchar
  have hi : infs = (lcTriples C config intrinsic depth_list color_list
      (ordPairs (pyRangeStep depth_list.length
        config.odometry_loop_interval))).map (fun t => t.2.2) :=
    congrArg (fun x => x.2.2.1) hchar
  subst he hi
  constructor
  · intro t h1 h2
    have hT : t < (lcTriples C config intrinsic depth_list color_list
        (ordPairs (pyRangeStep depth_list.length
          config.odometry_loop_interval))).length := by simpa using h1
    have hmem := List.get_mem (lcTriples C config intrinsic depth_list
      color_list (ordPairs (pyRangeStep depth_list.length
        config.odometry_loop_interval))) t hT
    obtain ⟨p, hpP, hFp⟩ := List.mem_filterMap.mp hmem
    obtain ⟨d1, res, info, hev, hk, htr⟩ := lcTriple_some_inv C config
      intrinsic depth_list color_list p _ hFp
    obtain ⟨c1, d2, c2, hl1, hl2, hevv⟩ := lcPairEval_ok_inv C config
      intrinsic depth_list color_list p d1 res info hev
    have hes : ((lcTriples C config intrinsic depth_list color_list
        (ordPairs (pyRangeStep depth_list.length
          config.odometry_loop_interval))).map (fun t => t.1)).get ⟨t, h1⟩ =
        ((lcTriples C config intrinsic depth_list color_list
        (ordPairs (pyRangeStep depth_list.length
          config.odometry_loop_interval))).get ⟨t, hT⟩).1 := by simp
    have his : ((lcTriples C config intrinsic depth_list color_list
        (ordPairs (pyRangeStep depth_list.length
          config.odometry_loop_interval))).map (fun t => t.2.2)).get
          ⟨t, h2⟩ =
        ((lcTriples C config intrinsic depth_list color_list
        (ordPairs (pyRangeStep depth_list.length
          config.odometry_loop_interval))).get ⟨t, hT⟩).2.2 := by simp
    rw [hes, his, htr]
    obtain ⟨hm1, hm2⟩ := ordPairs_mem _ p hpP
    exact ⟨hm1, hm2,
      ordPairs_lt _ (pyRangeStep_pairwise depth_list.length
        config.odometry_loop_interval hI) p hpP,
      d1, c1, hl1, hk⟩
  · intro p d1 res info hev hk hpin
    obtain ⟨x, hxT, hx1⟩ := List.mem_map.mp hpin
    obtain ⟨p', hp'P, hFp'⟩ := List.mem_filterMap.mp hxT
    have hfst := lcTriple_fst C config intrinsic depth_list color_list p' _
      hFp'
    rw [hx1] at hfst
    subst hfst
    rw [lcTriple_none_of_reject C config intrinsic depth_list color_list p
      d1 res info hev hk] at hFp'
    cases hFp'

/-- Over a strictly increasing key list, the pair list `ordPairs` is
strictly increasing in the lexicographic order: outer index ascending, and
inner index ascending within each outer index. -/
theorem ordPairs_pairwise_lex (l : List Nat) (hl : l.Pairwise (· < ·)) :
    (ordPairs l).Pairwise
      (fun p q => p.1 < q.1 ∨ (p.1 = q.1 ∧ p.2 < q.2)) := by
  induction l with
  | nil => exact List.Pairwise.nil
  | cons k ks ih =>
    obtain ⟨hk, hks⟩ := List.pairwise_cons.mp hl
    rw [ordPairs]
    rw [List.pairwise_append]
    refine ⟨?_, ih hks, ?_⟩
    · rw [List.pairwise_map]
      exact hks.imp (fun h => Or.inr ⟨rfl, h⟩)
    · intro a ha b hb
      obtain ⟨a2, ha2, hae⟩ := List.mem_map.mp ha
      subst hae
      exact Or.inl (hk b.1 (ordPairs_mem ks b hb).1)

/-- C8: under a positive stride and successful keyframe loads,
`rgbd_loop_closure` returns exactly the surviving triples of the ordered
pair list `ordPairs`, whose order is outer position ascending and inner
position ascending within it — the accumulation order is the evaluation
order. -/
theorem claim_C8 (C : Collab) (depth_list color_list : List String)
    (intrinsic : Intrinsic) (config : Config)
    (hI : config.odometry_loop_interval ≠ 0)
    (hloads : ∀ k ∈ pyRangeStep depth_list.length
        config.odometry_loop_interval,
      (loadFrame C depth_list color_list k).isOk = true) :
    rgbd_loop_closure C depth_list color_list intrinsic config =
      .ok ((lcTriples C config intrinsic depth_list color_list
              (ordPairs (pyRangeStep depth_list.length
                config.odometry_loop_interval))).map (fun t => t.1),
           (lcTriples C config intrinsic depth_list color_list
              (ordPairs (pyRangeStep depth_list.length
                config.odometry_loop_interval))).map (fun t => t.2.1),
           (lcTriples C config intrinsic depth_list color_list
              (ordPairs (pyRangeStep depth_list.length
                config.odometry_loop_interval))).map (fun t => t.2.2),
           (ordPairs (pyRangeStep depth_list.length
              config.odometry_loop_interval)).flatMap
             (lcLog C config intrinsic depth_list color_list)) ∧
    (ordPairs (pyRangeStep depth_list.length
        config.odometry_loop_interval)).Pairwise
      (fun p q => p.1 < q.1 ∨ (p.1 = q.1 ∧ p.2 < q.2)) :=
  ⟨rgbd_loop_closure_spec C depth_list color_list intrinsic config hI hloads,
   ordPairs_pairwise_lex _ (pyRangeStep_pairwise depth_list.length
     config.odometry_loop_interval hI)⟩

/-- The keyframe list of the `dlA`/`cfgA` fixture. -/
def keysA : List Nat := pyRangeStep dlA.length cfgA.odometry_loop_interval

/-- The ordered keyframe pairs of the fixture. -/
def pairsA : List (Nat × Nat) := ordPairs keysA

/-- The surviving triples of the fixture loop-closure run. -/
def TA : List ((Nat × Nat) × Tensor4 × InfoMatrix) :=
  lcTriples okCollab cfgA intrA dlA clA pairsA

/-- The debug log of the fixture loop-closure run. -/
def logA : List String :=
  pairsA.flatMap (lcLog okCollab cfgA intrA dlA clA)

/-- The edges of the fixture sequential run. -/
def esA : List (Nat × Nat) :=
  (List.range (dlA.length - 1)).map (fun i => (i, i + 1))

/-- The poses of the fixture sequential run. -/
def psA : List Tensor4 :=
  (List.range (dlA.length - 1)).map
    (stepPose okCollab cfgA intrA Method.Hybrid dlA clA)

/-- The information matrices of the fixture sequential run. -/
def infsA : List InfoMatrix :=
  (List.range (dlA.length - 1)).map
    (stepInfo okCollab cfgA intrA Method.Hybrid dlA clA)

/-- The edges of the fixture loop-closure run. -/
def esLA : List (Nat × Nat) := TA.map (fun tr => tr.1)

/-- The poses of the fixture loop-closure run. -/
def psLA : List Tensor4 := TA.map (fun tr => tr.2.1)

/-- The information matrices of the fixture loop-closure run. -/
def infsLA : List InfoMatrix := TA.map (fun tr => tr.2.2)

/-- C2 witness: the fixture loop-closure run. -/
theorem claim_C2_witness :
    (∀ t (h1 : t < esLA.length)
       (h2 : t < infsLA.length),
      (esLA.get ⟨t, h1⟩).1 ∈ pyRangeStep dlA.length
        cfgA.odometry_loop_interval ∧
      (esLA.get ⟨t, h1⟩).2 ∈ pyRangeStep dlA.length
        cfgA.odometry_loop_interval ∧
      (esLA.get ⟨t, h1⟩).1 <
        (esLA.get ⟨t, h1⟩).2 ∧
      ∃ d1 c1, loadFrame okCollab dlA clA
          (esLA.get ⟨t, h1⟩).1 = .ok (d1, c1) ∧
        overlapKeep d1 (infsLA.get ⟨t, h2⟩) = true) ∧
    (∀ p : Nat × Nat, ∀ d1 res info,
      lcPairEval okCollab cfgA intrA dlA clA p = .ok (d1, res, info) →
      overlapKeep d1 info = false → p ∉ esLA) :=
  claim_C2 okCollab dlA clA intrA cfgA esLA
    psLA infsLA logA
    (rgbd_loop_closure_spec okCollab dlA clA intrA cfgA (by decide)
      (by decide))

/-- C5 witness: the fixture runs of both drivers. -/
theorem claim_C5_witness :
    (esA.length = psA.length ∧ psA.length = infsA.length ∧
      ∀ t (h1 : t < esA.length) (h2 : t < psA.length)
        (h3 : t < infsA.length),
      ∃ method res info,
        resolveMethod cfgA.odometry_method = .ok method ∧
        (esA.get ⟨t, h1⟩).2 = (esA.get ⟨t, h1⟩).1 + 1 ∧
        seqStep okCollab cfgA intrA method dlA clA (esA.get ⟨t, h1⟩).1 =
          .ok (res, info) ∧
        psA.get ⟨t, h2⟩ = res.transformation ∧
        infsA.get ⟨t, h3⟩ = info) ∧
    (esLA.length = psLA.length ∧
      psLA.length =
        infsLA.length ∧
      ∀ t (h1 : t < esLA.length)
        (h2 : t < psLA.length)
        (h3 : t < infsLA.length),
      lcTriple okCollab cfgA intrA dlA clA
          (esLA.get ⟨t, h1⟩) =
        some (esLA.get ⟨t, h1⟩,
          psLA.get ⟨t, h2⟩,
          infsLA.get ⟨t, h3⟩)) :=
  ⟨(claim_C5 okCollab dlA clA intrA cfgA).1 esA psA infsA
    (rgbd_odometry_spec okCollab dlA clA intrA cfgA Method.Hybrid imgA imgA
      rfl rfl (by decide)),
   (claim_C5 okCollab dlA clA intrA cfgA).2 esLA psLA infsLA logA
    (rgbd_loop_closure_spec okCollab dlA clA intrA cfgA (by decide)
      (by decide))⟩

/-- C8 witness: the fixture loop-closure run accumulates the surviving
triples in the lexicographic evaluation order. -/
theorem claim_C8_witness :
    rgbd_loop_closure okCollab dlA clA intrA cfgA =
      .ok (esLA, psLA,
           infsLA, logA) ∧
    pairsA.Pairwise (fun p q => p.1 < q.1 ∨ (p.1 = q.1 ∧ p.2 < q.2)) :=
  claim_C8 okCollab dlA clA intrA cfgA (by decide) (by decide)

/-- C9: for every input, the three data sequences returned by
`rgbd_loop_closure` are identical whether the debug flag is set or not —
the debug branch feeds only the log (prints and renderings), never the
returned edges, poses or infos; error outcomes also coincide. -/
theorem claim_C9 (C : Collab) (depth_list color_list : List String)
    (intrinsic : Intrinsic) (config : Config) (b1 b2 : Bool) :
    Except.map (fun out => (out.1, out.2.1, out.2.2.1))
      (rgbd_loop_closure C depth_list color_list intrinsic
        { config with debug_mode := b1 }) =
    Except.map (fun out => (out.1, out.2.1, out.2.2.1))
      (rgbd_loop_closure C depth_list color_list intrinsic
        { config with debug_mode := b2 }) := by
  rw [rgbd_loop_closure, rgbd_loop_closure]
  by_cases h0 : config.odometry_loop_interval = 0
  · simp [h0]
  · simp only [show ({ config with debug_mode := b1 } :
        Config).odometry_loop_interval = config.odometry_loop_interval
        from rfl,
      show ({ config with debug_mode := b2 } :
        Config).odometry_loop_interval = config.odometry_loop_interval
        from rfl, h0, if_neg, ite_false]
    have hcore := lcOuter_core C { config with debug_mode := b1 }
      { config with debug_mode := b2 } intrinsic depth_list color_list
      rfl rfl rfl
      (pyRangeStep depth_list.length config.odometry_loop_interval) {} {}
      rfl
    cases e1 : lcOuter C { config with debug_mode := b1 } intrinsic
        depth_list color_list
        (pyRangeStep depth_list.length config.odometry_loop_interval) {} with
    | error e =>
      rw [e1] at hcore
      cases e2 : lcOuter C { config with debug_mode := b2 } intrinsic
          depth_list color_list
          (pyRangeStep depth_list.length config.odometry_loop_interval)
          {} with
      | error e' =>
        rw [e2] at hcore
        simp only [Except.map] at hcore
        cases hcore
        simp [bind, Except.bind, Except.map]
      | ok a2 => rw [e2] at hcore; simp [Except.map] at hcore
    | ok a1 =>
      rw [e1] at hcore
      cases e2 : lcOuter C { config with debug_mode := b2 } intrinsic
          depth_list color_list
          (pyRangeStep depth_list.length config.odometry_loop_interval)
          {} with
      | error e' => rw [e2] at hcore; simp [Except.map] at hcore
      | ok a2 =>
        rw [e2] at hcore
        simp only [Except.map, Except.ok.injEq] at hcore
        simp only [bind, Except.bind, pure, Except.pure, Except.map]
        have h1 : a1.edges = a2.edges := congrArg (fun x => x.1) hcore
        have h2 : a1.poses = a2.poses := congrArg (fun x => x.2.1) hcore
        have h3 : a1.infos = a2.infos := congrArg (fun x => x.2.2) hcore
        rw [h1, h2, h3]

/-- C10: `rgbd_loop_closure` never reads `config.odometry_method`: its
result is identical across any two method strings (including unsupported
ones); it depends on the odometry estimator only through its value at the
fixed criteria list (20, 10, 5 iterations) and the `PointToPlane` method;
and it never raises the unsupported-method error unless `read_image` itself
returns one. -/
theorem claim_C10 (C C2 : Collab) (depth_list color_list : List String)
    (intrinsic : Intrinsic) (config : Config) (m1 m2 : String)
    (hr : C2.read_image = C.read_image)
    (hest : ∀ a b i t s m, C2.rgbd_odometry_multi_scale a b i t s m
        criteria_list Method.PointToPlane =
      C.rgbd_odometry_multi_scale a b i t s m criteria_list
        Method.PointToPlane)
    (hinfo : C2.compute_odometry_information_matrix =
      C.compute_odometry_information_matrix)
    (hnou : ∀ p s, C.read_image p ≠ .error (.unsupportedMethod s)) :
    rgbd_loop_closure C depth_list color_list intrinsic
        { config with odometry_method := m1 } =
      rgbd_loop_closure C depth_list color_list intrinsic
        { config with odometry_method := m2 } ∧
    rgbd_loop_closure C2 depth_list color_list intrinsic
        { config with odometry_method := m1 } =
      rgbd_loop_closure C depth_list color_list intrinsic
        { config with odometry_method := m1 } ∧
    ∀ s, rgbd_loop_closure C depth_list color_list intrinsic
        { config with odometry_method := m1 } ≠
      .error (.unsupportedMethod s) := by
  refine ⟨rgbd_loop_closure_cfg C depth_list color_list intrinsic _ _
    rfl rfl rfl rfl rfl, ?_, ?_⟩
  · rw [rgbd_loop_closure, rgbd_loop_closure]
    by_cases h0 : config.odometry_loop_interval = 0
    · simp [show ({ config with odometry_method := m1 } :
          Config).odometry_loop_interval = config.odometry_loop_interval
          from rfl, h0]
    · simp only [show ({ config with odometry_method := m1 } :
          Config).odometry_loop_interval = config.odometry_loop_interval
          from rfl, h0, if_neg, ite_false]
      rw [lcOuter_collab C2 C { config with odometry_method := m1 }
        intrinsic depth_list color_list hr hest hinfo
        (pyRangeStep depth_list.length config.odometry_loop_interval) {}]
  · intro s hcontra
    rcases rgbd_loop_closure_errsrc C depth_list color_list intrinsic
        { config with odometry_method := m1 } (.unsupportedMethod s)
        hcontra with h | h | ⟨p, hp⟩
    · cases h
    · cases h
    · exact hnou p s hp

/-- A collaborator bundle agreeing with `okCollab` at `PointToPlane` but
raising on any other method. -/
def altEstCollab : Collab where
  read_image := fun _ => .ok imgA
  rgbd_odometry_multi_scale := fun _ _ _ _ _ _ _ meth =>
    if meth = Method.PointToPlane then .ok ⟨eye4⟩
    else .error .alignmentFailure
  compute_odometry_information_matrix := fun _ _ _ _ _ _ _ =>
    .ok ⟨fun _ _ => 20⟩

/-- C10 witness: the fixture loop-closure run with method strings `bogus`
and `hybrid`. -/
theorem claim_C10_witness :
    rgbd_loop_closure okCollab dlA clA intrA
        { cfgA with odometry_method := "bogus" } =
      rgbd_loop_closure okCollab dlA clA intrA
        { cfgA with odometry_method := "hybrid" } ∧
    rgbd_loop_closure altEstCollab dlA clA intrA
        { cfgA with odometry_method := "bogus" } =
      rgbd_loop_closure okCollab dlA clA intrA
        { cfgA with odometry_method := "bogus" } ∧
    ∀ s, rgbd_loop_closure okCollab dlA clA intrA
        { cfgA with odometry_method := "bogus" } ≠
      .error (.unsupportedMethod s) :=
  claim_C10 okCollab altEstCollab dlA clA intrA cfgA "bogus" "hybrid" rfl
    (fun a b i t s m => rfl)
    rfl
    (fun p s h => by simp [okCollab] at h)

/-- Counting lemma: when `f` keeps exactly the elements that `g` keeps plus
those flagged by `h` (and no element is both), the `f`-survivors number the
`g`-survivors plus the flagged count. -/
theorem filterMap_length_split {α β : Type} (P : List α)
    (f g : α → Option β) (h : α → Bool)
    (hpt : ∀ p ∈ P, ((f p).isSome = ((g p).isSome || h p)) ∧
      ¬((g p).isSome = true ∧ h p = true)) :
    (P.filterMap f).length = (P.filterMap g).length + P.countP h := by
  induction P with
  | nil => simp
  | cons a P ih =>
    obtain ⟨hpa, hdis⟩ := hpt a (List.mem_cons_self a P)
    have ih2 := ih (fun p hp => hpt p (List.mem_cons_of_mem a hp))
    rw [List.filterMap_cons, List.filterMap_cons, List.countP_cons]
    cases hga : g a with
    | some b =>
      have hha : h a = false := by
        cases hh : h a
        · rfl
        · exact absurd ⟨by rw [hga]; rfl, hh⟩ hdis
      have hfa : (f a).isSome = true := by rw [hpa, hga]; simp
      obtain ⟨bf, hbf⟩ := Option.isSome_iff_exists.mp hfa
      rw [hbf]
      simp [hha, ih2]
      omega
    | none =>
      cases hha : h a with
      | false =>
        have hfa : f a = none := by
          have hs : (f a).isSome = false := by rw [hpa, hga, hha]; rfl
          cases hfa' : f a with
          | none => rfl
          | some b => rw [hfa'] at hs; simp at hs
        rw [hfa]
        simp [hha, ih2]
      | true =>
        have hfa : (f a).isSome = true := by rw [hpa, hga, hha]; rfl
        obtain ⟨bf, hbf⟩ := Option.isSome_iff_exists.mp hfa
        rw [hbf]
        simp [hha, ih2]
        omega

/-- C3 (amended): a per-pair exception in `rgbd_loop_closure` is silently
skipped, no exception escapes, the remaining pairs are still evaluated, and
relative to a no-failure run the edge count is reduced by exactly the
number of failed pairs that the no-failure run would keep past the overlap
filter (so by at most the number of failed pairs, not always exactly). -/
theorem claim_C3 (C C2 : Collab) (depth_list color_list : List String)
    (intrinsic : Intrinsic) (config : Config)
    (hI : config.odometry_loop_interval ≠ 0)
    (hr : C2.read_image = C.read_image)
    (hloads : ∀ k ∈ pyRangeStep depth_list.length
        config.odometry_loop_interval,
      (loadFrame C depth_list color_list k).isOk = true)
    (hok2 : ∀ p ∈ ordPairs (pyRangeStep depth_list.length
        config.odometry_loop_interval),
      (lcPairEval C2 config intrinsic depth_list color_list p).isOk = true)
    (hagree : ∀ p, (lcPairEval C config intrinsic depth_list color_list
        p).isOk = true →
      lcPairEval C2 config intrinsic depth_list color_list p =
        lcPairEval C config intrinsic depth_list color_list p) :
    ∃ es ps infs log es2 ps2 infs2 log2,
      rgbd_loop_closure C depth_list color_list intrinsic config =
        .ok (es, ps, infs, log) ∧
      rgbd_loop_closure C2 depth_list color_list intrinsic config =
        .ok (es2, ps2, infs2, log2) ∧
      es2.length = es.length +
        (ordPairs (pyRangeStep depth_list.length
          config.odometry_loop_interval)).countP
          (fun p => !(lcPairEval C config intrinsic depth_list color_list
              p).isOk &&
            (lcTriple C2 config intrinsic depth_list color_list p).isSome) := by
  have hloads2 : ∀ k ∈ pyRangeStep depth_list.length
      config.odometry_loop_interval,
      (loadFrame C2 depth_list color_list k).isOk = true := by
    intro k hk
    rw [loadFrame_collab C2 C depth_list color_list k hr]
    exact hloads k hk
  refine ⟨_, _, _, _, _, _, _, _,
    rgbd_loop_closure_spec C depth_list color_list intrinsic config hI
      hloads,
    rgbd_loop_closure_spec C2 depth_list color_list intrinsic config hI
      hloads2, ?_⟩
  simp only [List.length_map, lcTriples]
  apply filterMap_length_split
  intro p hp
  cases hev : lcPairEval C config intrinsic depth_list color_list p with
  | ok v =>
    have hagp := hagree p (by rw [hev]; rfl)
    have heq : lcTriple C2 config intrinsic depth_list color_list p =
        lcTriple C config intrinsic depth_list color_list p := by
      rw [lcTriple, lcTriple, hagp]
    constructor
    · simp [heq, hev, Except.isOk, Except.toBool]
    · simp [hev, Except.isOk, Except.toBool]
  | error e =>
    have hgnone : lcTriple C config intrinsic depth_list color_list p =
        none := by rw [lcTriple, hev]
    constructor
    · simp [hgnone, hev, Except.isOk, Except.toBool]
    · simp [hgnone]

/-- Two depth paths. -/
def dlB : List String := ["d0", "d1"]

/-- Two color paths. -/
def clB : List String := ["c0", "c1"]

/-- A collaborator bundle whose calls all succeed but whose information
matrix is all-zero, so every pair fails the overlap filter. -/
def lowInfoCollab : Collab where
  read_image := fun _ => .ok imgA
  rgbd_odometry_multi_scale := fun _ _ _ _ _ _ _ _ => .ok ⟨eye4⟩
  compute_odometry_information_matrix := fun _ _ _ _ _ _ _ =>
    .ok ⟨fun _ _ => 0⟩

/-- The number of edges of a loop-closure outcome (0 when it raised). -/
def edgeCount (r : Except Err
    (List (Nat × Nat) × List Tensor4 × List InfoMatrix × List String)) :
    Nat :=
  match r with
  | .ok out => out.1.length
  | .error _ => 0

/-- With the always-failing estimator, no pair evaluation ever succeeds. -/
theorem failEst_pairEval_isOk_false (depth_list color_list : List String)
    (config : Config) (intrinsic : Intrinsic) (p : Nat × Nat) :
    (lcPairEval failEstCollab config intrinsic depth_list color_list
      p).isOk = false := by
  rw [lcPairEval]
  cases h1 : loadFrame failEstCollab depth_list color_list p.1 with
  | error e => simp [bind, Except.bind, Except.isOk, Except.toBool]
  | ok dc1 =>
    obtain ⟨d1, c1⟩ := dc1
    simp only [bind, Except.bind]
    cases h2 : loadFrame failEstCollab depth_list color_list p.2 with
    | error e => simp [Except.isOk, Except.toBool]
    | ok dc2 =>
      obtain ⟨d2, c2⟩ := dc2
      simp only
      rw [lcEval]
      simp [failEstCollab, bind, Except.bind, Except.isOk, Except.toBool]

/-- C3 counterexample: two keyframes, one pair.  The failing run (estimator
raises) returns 0 edges without raising; the no-failure counterpart run
also returns 0 edges, because its information matrix fails the overlap
filter.  One pair failed, yet the edge count is not reduced by exactly one
relative to the no-failure run. -/
theorem claim_C3_counterexample :
    (ordPairs (pyRangeStep dlB.length
        cfgA.odometry_loop_interval)).countP
      (fun p => !(lcPairEval failEstCollab cfgA intrA dlB clB p).isOk) = 1 ∧
    (ordPairs (pyRangeStep dlB.length
        cfgA.odometry_loop_interval)).countP
      (fun p => (lcPairEval lowInfoCollab cfgA intrA dlB clB p).isOk) =
      (ordPairs (pyRangeStep dlB.length
        cfgA.odometry_loop_interval)).length ∧
    lowInfoCollab.read_image = failEstCollab.read_image ∧
    edgeCount (rgbd_loop_closure failEstCollab dlB clB intrA cfgA) = 0 ∧
    edgeCount (rgbd_loop_closure lowInfoCollab dlB clB intrA cfgA) = 0 ∧
    edgeCount (rgbd_loop_closure lowInfoCollab dlB clB intrA cfgA) ≠
      edgeCount (rgbd_loop_closure failEstCollab dlB clB intrA cfgA) + 1 := by
  have hk0 : overlapKeep imgA ⟨fun _ _ => 0⟩ = false := by
    rw [overlapKeep]
    exact decide_eq_false (by norm_num [imgA])
  have hlow : rgbd_loop_closure lowInfoCollab dlB clB intrA cfgA =
      .ok ((lcTriples lowInfoCollab cfgA intrA dlB clB
              (ordPairs (pyRangeStep dlB.length
                cfgA.odometry_loop_interval))).map (fun t => t.1),
           (lcTriples lowInfoCollab cfgA intrA dlB clB
              (ordPairs (pyRangeStep dlB.length
                cfgA.odometry_loop_interval))).map (fun t => t.2.1),
           (lcTriples lowInfoCollab cfgA intrA dlB clB
              (ordPairs (pyRangeStep dlB.length
                cfgA.odometry_loop_interval))).map (fun t => t.2.2),
           (ordPairs (pyRangeStep dlB.length
              cfgA.odometry_loop_interval)).flatMap
             (lcLog lowInfoCollab cfgA intrA dlB clB)) :=
    rgbd_loop_closure_spec lowInfoCollab dlB clB intrA cfgA (by decide)
      (by decide)
  have hlowcount : edgeCount (rgbd_loop_closure lowInfoCollab dlB clB intrA
      cfgA) = 0 := by
    rw [hlow, edgeCount]
    simp [lcTriples, lcTriple, lcPairEval, lcEval, loadFrame, listGet,
      lowInfoCollab, ordPairs, pyRangeStep, dlB, clB, cfgA, bind,
      Except.bind, pure, Except.pure, hk0, List.filterMap_cons,
      List.filterMap_nil]
  refine ⟨by decide, by decide, rfl, by decide, hlowcount, ?_⟩
  · rw [hlowcount]
    have hfail : edgeCount (rgbd_loop_closure failEstCollab dlB clB intrA
        cfgA) = 0 := by decide
    rw [hfail]
    decide

/-- C3 witness (for the amended claim): the concrete two-keyframe input of
the counterexample, where the failing pair would not have been kept by the
no-failure run. -/
theorem claim_C3_witness :
    ∃ es ps infs log es2 ps2 infs2 log2,
      rgbd_loop_closure failEstCollab dlB clB intrA cfgA =
        .ok (es, ps, infs, log) ∧
      rgbd_loop_closure lowInfoCollab dlB clB intrA cfgA =
        .ok (es2, ps2, infs2, log2) ∧
      es2.length = es.length +
        (ordPairs (pyRangeStep dlB.length
          cfgA.odometry_loop_interval)).countP
          (fun p => !(lcPairEval failEstCollab cfgA intrA dlB clB p).isOk &&
            (lcTriple lowInfoCollab cfgA intrA dlB clB p).isSome) :=
  claim_C3 failEstCollab lowInfoCollab dlB clB intrA cfgA (by decide) rfl
    (by decide) (by decide)
    (fun p h => by
      rw [failEst_pairEval_isOk_false dlB clB cfgA intrA p] at h
      cases h)

end RGBD
